import Mathlib

/-!
Verification of the 2048 expectimax AI (`2048-ai.py`).

The board model, heuristics and search engine are shallowly embedded:
grids are lists of rows of natural numbers, the Python `while` loop of
`merge_left` is embedded with an explicit fuel argument (the loop runs at
most `len - 1` times because the list length is invariant across loop
iterations, so fuel `len` is always sufficient), floating point scores are
modelled as real numbers, and the float `-inf` sentinel of the maximizing
node is modelled by `⊥` in `EReal`.
-/

/-- A game board: a list of rows of tile values; the source represents it
as a list of four lists of four ints. -/
abbrev Grid := List (List Nat)

/-- The four move directions. -/
inductive Dir where
  | up
  | down
  | left
  | right
deriving DecidableEq, Repr

/-- `grid[x][y]` with out-of-range reads defaulting to `0` (the source only
ever indexes in range). -/
def cell (g : Grid) (x y : Nat) : Nat := (g.getD x []).getD y 0

/-- Well-formedness: a 4x4 grid. -/
def WF (g : Grid) : Prop := g.length = 4 ∧ ∀ r ∈ g, r.length = 4

instance : DecidablePred WF := fun g => by
  unfold WF; infer_instance

/-- One iteration body of the `while` loop in `merge_left`:
`if new_row[i] == new_row[i+1]: new_row[i] *= 2; del new_row[i+1];
new_row.append(0)`. -/
def mergeBody (l : List Nat) (i : Nat) : List Nat :=
  if l.getD i 0 = l.getD (i+1) 0 then
    ((l.set i (l.getD i 0 * 2)).eraseIdx (i+1)) ++ [0]
  else l

/-- The `while i < len(new_row) - 1` loop of `merge_left`, with fuel.
The list length is invariant across iterations (`del` plus `append`), so
the loop runs at most `len - 1` times and fuel `len` is sufficient. -/
def mergeLoop : Nat → List Nat → Nat → List Nat
  | 0, l, _ => l
  | fuel+1, l, i => if i < l.length - 1 then mergeLoop fuel (mergeBody l i) (i+1) else l

/-- Per-row pass of `merge_left`: drop zeros, run the merge loop, pad with
trailing zeros back to length 4. -/
def merge_row (row : List Nat) : List Nat :=
  let nr := row.filter (fun t => t ≠ 0)
  let merged := mergeLoop nr.length nr 0
  merged ++ List.replicate (4 - merged.length) 0

/-- `merge_left`: merges every row of the grid to the left. -/
def merge_left (g : Grid) : Grid := g.map merge_row

/-- `reverse`: reverses each row in the grid (`row[::-1]`). -/
def reverse (g : Grid) : Grid := g.map List.reverse

/-- `zip(*rows)`: repeatedly take the heads of all the rows while every
row is non-empty (Python's `zip` truncates at the shortest row).  The
fuel bounds the number of produced columns; fuel 4 is exact for the
4-column grids of this program. -/
def zipRows : Nat → List (List Nat) → List (List Nat)
  | 0, _ => []
  | fuel+1, ls =>
    if ls.isEmpty || ls.any (fun r => r.isEmpty) then []
    else (ls.map (fun r => r.headD 0)) :: zipRows fuel (ls.map (fun r => r.tail))

/-- One step of `rotate`: `zip(*grid[::-1])`, a 90 degree clockwise
rotation. -/
def rotateOnce (g : Grid) : Grid := zipRows 4 g.reverse

/-- `rotate(grid, times)`: `times % 4` clockwise rotations; Python `%` on
negative ints matches `Int.emod`. -/
def rotate (g : Grid) (times : Int) : Grid := rotateOnce^[(times % 4).toNat] g

/-- `move`: performs a move in the specified direction. -/
def move (g : Grid) (direction : Dir) : Grid :=
  match direction with
  | .up => rotate (merge_left (rotate g 1)) (-1)
  | .down => rotate (merge_left (rotate g (-1))) 1
  | .left => merge_left g
  | .right => reverse (merge_left (reverse g))

/-- `game_over`: no empty cell and no equal horizontally or vertically
adjacent pair. -/
def game_over (g : Grid) : Bool :=
  if g.any (fun row => row.contains 0) then false
  else if (List.range 4).any (fun x => (List.range 4).any (fun y =>
    (decide (x + 1 < 4) && decide (cell g x y = cell g (x+1) y)) ||
    (decide (y + 1 < 4) && decide (cell g x y = cell g x (y+1))))) then false
  else true

/-- `get_possible_moves`: the directions whose move changes the grid,
paired with the resulting grids, in the fixed order up, down, left,
right. -/
def get_possible_moves (g : Grid) : List (Dir × Grid) :=
  (([Dir.up, Dir.down, Dir.left, Dir.right]).map (fun d => (d, move g d))).filter
    (fun p => p.2 ≠ g)

/-- `grid[r][c] = v` as a pure update. -/
def set_tile (g : Grid) (r c v : Nat) : Grid := g.set r ((g.getD r []).set c v)

/-- Row-major list of the empty cells (`add_random_tile` and the chance
node of `expectimax` both recompute it this way). -/
def empty_cells (g : Grid) : List (Nat × Nat) :=
  (List.range 4).flatMap (fun r =>
    (List.range 4).filterMap (fun c => if cell g r c = 0 then some (r, c) else none))

/-- The possible outcomes of `add_random_tile`: a uniformly chosen empty
cell receives `2` (probability 0.9) or `4` (probability 0.1); no-op when
the board is full.  Randomness is modelled by the support relation. -/
def add_random_tile_rel (g g' : Grid) : Prop :=
  (empty_cells g ≠ [] ∧ ∃ p ∈ empty_cells g, ∃ v ∈ [2, 4], g' = set_tile g p.1 p.2 v)
  ∨ (empty_cells g = [] ∧ g' = g)

instance (g g' : Grid) : Decidable (add_random_tile_rel g g') := by
  unfold add_random_tile_rel; infer_instance

/-- The all-zero starting grid `[[0]*4 for _ in range(4)]`. -/
def zeroGrid : Grid := List.replicate 4 (List.replicate 4 0)

/-- The possible outcomes of `initialize_game`: the zero grid with two
random tiles added. -/
def initialize_game_rel (g : Grid) : Prop :=
  ∃ g1, add_random_tile_rel zeroGrid g1 ∧ add_random_tile_rel g1 g

/-- The single-pass merge of the specification: after compaction, two
equal adjacent tiles merge into their double and the merged tile never
merges again in the same pass. -/
def pairMerge : List Nat → List Nat
  | a :: b :: t => if a = b then a * 2 :: pairMerge t else a :: pairMerge (b :: t)
  | l => l

/-- The specification form of a left-merge on one row: compact the
non-zero tiles leftward, do a single-merge pass, pad with trailing zeros
to length 4. -/
def merge_row_spec (row : List Nat) : List Nat :=
  let m := pairMerge (row.filter (fun t => t ≠ 0))
  m ++ List.replicate (4 - m.length) 0

/-- The reference reorientation of the claim for `up`: columns read
top-to-bottom become rows. -/
def toRowsTopDown (g : Grid) : Grid :=
  [[cell g 0 0, cell g 1 0, cell g 2 0, cell g 3 0],
   [cell g 0 1, cell g 1 1, cell g 2 1, cell g 3 1],
   [cell g 0 2, cell g 1 2, cell g 2 2, cell g 3 2],
   [cell g 0 3, cell g 1 3, cell g 2 3, cell g 3 3]]

/-- Undo of `toRowsTopDown` (its own inverse: entry `(r, c)` of the result
comes from entry `(c, r)` of the merged grid). -/
def fromRowsTopDown (m : Grid) : Grid := toRowsTopDown m

/-- The reference reorientation of the claim for `down`: columns read
bottom-to-top become rows. -/
def toRowsBottomUp (g : Grid) : Grid :=
  [[cell g 3 0, cell g 2 0, cell g 1 0, cell g 0 0],
   [cell g 3 1, cell g 2 1, cell g 1 1, cell g 0 1],
   [cell g 3 2, cell g 2 2, cell g 1 2, cell g 0 2],
   [cell g 3 3, cell g 2 3, cell g 1 3, cell g 0 3]]

/-- Undo of `toRowsBottomUp`: entry `(r, c)` of the result comes from
entry `(c, 3-r)` of the merged grid. -/
def fromRowsBottomUp (m : Grid) : Grid :=
  [[cell m 0 3, cell m 1 3, cell m 2 3, cell m 3 3],
   [cell m 0 2, cell m 1 2, cell m 2 2, cell m 3 2],
   [cell m 0 1, cell m 1 1, cell m 2 1, cell m 3 1],
   [cell m 0 0, cell m 1 0, cell m 2 0, cell m 3 0]]

/-- The reference implementation of `applyMove` exactly as claim C1 words
it: reorient so the target edge becomes the left edge (rows unchanged for
left, rows reversed for right, columns top-to-bottom for up, columns
bottom-to-top for down), left-merge every line, undo the reorientation. -/
def applyMoveRef (g : Grid) (d : Dir) : Grid :=
  match d with
  | .left => merge_left g
  | .right => reverse (merge_left (reverse g))
  | .up => fromRowsTopDown (merge_left (toRowsTopDown g))
  | .down => fromRowsBottomUp (merge_left (toRowsBottomUp g))

/-- The amended reference: as `applyMoveRef` but with the `up` and `down`
reorientations exchanged (`up` uses columns read bottom-to-top, `down`
columns read top-to-bottom), which is what the code implements. -/
def applyMoveRefAmended (g : Grid) (d : Dir) : Grid :=
  match d with
  | .left => merge_left g
  | .right => reverse (merge_left (reverse g))
  | .up => fromRowsBottomUp (merge_left (toRowsBottomUp g))
  | .down => fromRowsTopDown (merge_left (toRowsTopDown g))

/-! ### Heuristic evaluator -/

/-- `empty_tile_heuristic`: the number of zero cells. -/
def empty_tile_heuristic (g : Grid) : Nat := (g.map (fun row => row.count 0)).sum

/-- The `while` scan of `smoothness_heuristic`: first non-empty cell value
on the ray from `(x, y)` in direction `(dx, dy)`; fuel 4 covers the at
most three in-bounds steps. -/
def rayTarget (g : Grid) : Nat → Nat → Nat → Nat → Nat → Option Nat
  | 0, _, _, _, _ => none
  | fuel+1, x, y, dx, dy =>
    if x < 4 ∧ y < 4 then
      if cell g x y ≠ 0 then some (cell g x y)
      else rayTarget g fuel (x + dx) (y + dy) dx dy
    else none

/-- Contribution of one cell and one scan direction to the smoothness
score: minus the absolute difference of base-2 logs to the nearest
non-empty cell in that direction, `0` when there is none. -/
noncomputable def smoothContrib (g : Grid) (x y dx dy : Nat) : ℝ :=
  match rayTarget g 4 (x + dx) (y + dy) dx dy with
  | some t => -|Real.logb 2 (cell g x y : ℝ) - Real.logb 2 (t : ℝ)|
  | none => 0

/-- `smoothness_heuristic`: sums the (negative) contributions over all
non-empty cells and the two forward directions. -/
noncomputable def smoothness_heuristic (g : Grid) : ℝ :=
  ((List.range 4).map (fun x =>
    ((List.range 4).map (fun y =>
      if cell g x y ≠ 0 then smoothContrib g x y 1 0 + smoothContrib g x y 0 1
      else 0)).sum)).sum

/-- `math.log2(v) if v else 0`, the cell value used by
`monotonicity_heuristic`. -/
noncomputable def logval (n : Nat) : ℝ := if n ≠ 0 then Real.logb 2 (n : ℝ) else 0

/-- One directional total of `monotonicity_heuristic`: accumulate
`nxt - cur` over consecutive pairs of `line` whenever `cur > nxt`
(`decreasing = true` flips the comparison and accumulates `cur - nxt`). -/
noncomputable def monoTotal (line : List Nat) (decreasing : Bool) : ℝ :=
  ((List.range 3).map (fun i =>
    let cur := logval (line.getD i 0)
    let nxt := logval (line.getD (i+1) 0)
    if decreasing then (if nxt > cur then cur - nxt else 0)
    else (if cur > nxt then nxt - cur else 0))).sum

/-- The row `x` of the grid, as read by the heuristics. -/
def gridRow (g : Grid) (x : Nat) : List Nat := [cell g x 0, cell g x 1, cell g x 2, cell g x 3]

/-- The column `y` of the grid (`[grid[x][y] for x in range(4)]`). -/
def gridCol (g : Grid) (y : Nat) : List Nat := [cell g 0 y, cell g 1 y, cell g 2 y, cell g 3 y]

/-- `monotonicity_heuristic`: `max(totals[0], totals[1]) +
max(totals[2], totals[3])` with the four directional totals. -/
noncomputable def monotonicity_heuristic (g : Grid) : ℝ :=
  let t0 := ((List.range 4).map (fun x => monoTotal (gridRow g x) false)).sum
  let t1 := ((List.range 4).map (fun x => monoTotal (gridRow g x) true)).sum
  let t2 := ((List.range 4).map (fun y => monoTotal (gridCol g y) false)).sum
  let t3 := ((List.range 4).map (fun y => monoTotal (gridCol g y) true)).sum
  max t0 t1 + max t2 t3

/-- The largest cell value (`max(max(row) for row in grid)`). -/
def maxCell (g : Grid) : Nat := (g.map (fun row => row.foldr max 0)).foldr max 0

/-- `max_tile_heuristic`: base-2 log of the largest tile, `0` on an
all-zero board. -/
noncomputable def max_tile_heuristic (g : Grid) : ℝ :=
  if maxCell g ≠ 0 then Real.logb 2 (maxCell g : ℝ) else 0

/-- `combined_heuristic`: the weighted sum of the four sub-heuristics. -/
noncomputable def combined_heuristic (g : Grid) : ℝ :=
  let empty_weight : ℝ := 2.7
  let max_tile_weight : ℝ := 1.0
  let smoothness_weight : ℝ := 0.1
  let monotonicity_weight : ℝ := 1.0
  empty_weight * (empty_tile_heuristic g : ℝ) +
    max_tile_weight * max_tile_heuristic g +
    smoothness_weight * smoothness_heuristic g +
    monotonicity_weight * monotonicity_heuristic g

/-! ### The expectimax search

Scores are embedded in `EReal`: the heuristic produces (finite) reals and
the maximizing node's float `-inf` sentinel is `⊥`.  The recursion is
well-founded on `max_depth - depth` given `depth ≤ max_depth`, which is
the domain the claims quantify over (the hypothesis argument is proof
irrelevant).  `expectimax_plain` is the recursion with the transposition
table lookup and store removed; `expectimax_memo` threads the table, a
content-addressed partial map from `(grid, depth, player_turn)` keys. -/

mutual
noncomputable def expectimax_plain (g : Grid) (depth : Nat) (player_turn : Bool)
    (max_depth : Nat) (h : depth ≤ max_depth) : EReal × Option Dir :=
  if hstop : depth = max_depth ∨ game_over g = true then
    ((combined_heuristic g : EReal), none)
  else if player_turn then
    have hlt : depth < max_depth := lt_of_le_of_ne h (fun he => hstop (Or.inl he))
    maxFold (get_possible_moves g) (depth+1) max_depth hlt ((⊥ : EReal), none)
  else
    if empty_cells g = [] then ((combined_heuristic g : EReal), none)
    else
      have hlt : depth < max_depth := lt_of_le_of_ne h (fun he => hstop (Or.inl he))
      (chanceFold (empty_cells g) (empty_cells g).length g (depth+1) max_depth hlt 0, none)
termination_by (max_depth - depth, 0, 0)

noncomputable def maxFold (moves : List (Dir × Grid)) (depth max_depth : Nat)
    (h : depth ≤ max_depth) (acc : EReal × Option Dir) : EReal × Option Dir :=
  match moves with
  | [] => acc
  | (d, g') :: rest =>
    let s := (expectimax_plain g' depth false max_depth h).1
    maxFold rest depth max_depth h (if s > acc.1 then (s, some d) else acc)
termination_by (max_depth - depth, 1, moves.length)

noncomputable def chanceFold (cells : List (Nat × Nat)) (total : Nat) (g : Grid)
    (depth max_depth : Nat) (h : depth ≤ max_depth) (score : EReal) : EReal :=
  match cells with
  | [] => score
  | (r, c) :: rest =>
    let s2 := (expectimax_plain (set_tile g r c 2) depth true max_depth h).1
    let s4 := (expectimax_plain (set_tile g r c 4) depth true max_depth h).1
    chanceFold rest total g depth max_depth h
      (score + ((0.9 / (total : ℝ) : ℝ) : EReal) * s2 + ((0.1 / (total : ℝ) : ℝ) : EReal) * s4)
termination_by (max_depth - depth, 1, cells.length)
end

/-- A transposition table: a content-addressed partial map from
`(grid contents, depth, player_turn)` to cached results. -/
def Table : Type := (Grid × Nat × Bool) → Option (EReal × Option Dir)

/-- The empty transposition table. -/
def emptyTable : Table := fun _ => none

/-- Storing one entry in the transposition table. -/
def tableInsert (t : Table) (k : Grid × Nat × Bool) (v : EReal × Option Dir) : Table :=
  fun k' => if k' = k then some v else t k'

/-- Soundness of a transposition table: every stored entry is the result
of the plain (memoization-free) recursion at exactly its key. -/
def TableOK (max_depth : Nat) (t : Table) : Prop :=
  ∀ (g : Grid) (d : Nat) (pl : Bool) (r : EReal × Option Dir),
    t (g, d, pl) = some r → ∃ h : d ≤ max_depth, r = expectimax_plain g d pl max_depth h

mutual
noncomputable def expectimax_memo (g : Grid) (depth : Nat) (player_turn : Bool)
    (max_depth : Nat) (h : depth ≤ max_depth) (t : Table) :
    (EReal × Option Dir) × Table :=
  match t (g, depth, player_turn) with
  | some r => (r, t)
  | none =>
    if hstop : depth = max_depth ∨ game_over g = true then
      ((((combined_heuristic g : EReal), none)),
        tableInsert t (g, depth, player_turn) ((combined_heuristic g : EReal), none))
    else if player_turn then
      have hlt : depth < max_depth := lt_of_le_of_ne h (fun he => hstop (Or.inl he))
      let p := maxFoldMemo (get_possible_moves g) (depth+1) max_depth hlt ((⊥ : EReal), none) t
      (p.1, tableInsert p.2 (g, depth, player_turn) p.1)
    else
      if empty_cells g = [] then
        ((((combined_heuristic g : EReal), none)),
          tableInsert t (g, depth, player_turn) ((combined_heuristic g : EReal), none))
      else
        have hlt : depth < max_depth := lt_of_le_of_ne h (fun he => hstop (Or.inl he))
        let p := chanceFoldMemo (empty_cells g) (empty_cells g).length g (depth+1) max_depth hlt 0 t
        (((p.1, none)), tableInsert p.2 (g, depth, player_turn) (p.1, none))
termination_by (max_depth - depth, 0, 0)

noncomputable def maxFoldMemo (moves : List (Dir × Grid)) (depth max_depth : Nat)
    (h : depth ≤ max_depth) (acc : EReal × Option Dir) (t : Table) :
    (EReal × Option Dir) × Table :=
  match moves with
  | [] => (acc, t)
  | (d, g') :: rest =>
    let p := expectimax_memo g' depth false max_depth h t
    maxFoldMemo rest depth max_depth h
      (if p.1.1 > acc.1 then (p.1.1, some d) else acc) p.2
termination_by (max_depth - depth, 1, moves.length)

noncomputable def chanceFoldMemo (cells : List (Nat × Nat)) (total : Nat) (g : Grid)
    (depth max_depth : Nat) (h : depth ≤ max_depth) (score : EReal) (t : Table) :
    EReal × Table :=
  match cells with
  | [] => (score, t)
  | (r, c) :: rest =>
    let p2 := expectimax_memo (set_tile g r c 2) depth true max_depth h t
    let p4 := expectimax_memo (set_tile g r c 4) depth true max_depth h p2.2
    chanceFoldMemo rest total g depth max_depth h
      (score + ((0.9 / (total : ℝ) : ℝ) : EReal) * p2.1.1 + ((0.1 / (total : ℝ) : ℝ) : EReal) * p4.1.1)
      p4.2
termination_by (max_depth - depth, 1, cells.length)
end

/-! ### A fuel-instrumented copy of the recursion, used to state
termination: with any fuel exceeding `max_depth - depth` the search
returns (it never exhausts the fuel), because every recursive call
increases `depth` by exactly one and every path stops at
`depth = max_depth` or before. -/

mutual
noncomputable def expectimaxFuel : Nat → Grid → Nat → Bool → Nat → Option (EReal × Option Dir)
  | 0, _, _, _, _ => none
  | fuel+1, g, depth, player_turn, max_depth =>
    if depth = max_depth ∨ game_over g = true then some ((combined_heuristic g : EReal), none)
    else if player_turn then
      maxFoldFuel fuel (get_possible_moves g) (depth+1) max_depth ((⊥ : EReal), none)
    else
      if empty_cells g = [] then some ((combined_heuristic g : EReal), none)
      else
        (chanceFoldFuel fuel (empty_cells g) (empty_cells g).length g (depth+1) max_depth 0).map
          (fun s => (s, none))
termination_by fuel _ _ _ _ => (fuel, 0, 0)

noncomputable def maxFoldFuel (fuel : Nat) (moves : List (Dir × Grid)) (depth max_depth : Nat)
    (acc : EReal × Option Dir) : Option (EReal × Option Dir) :=
  match moves with
  | [] => some acc
  | (d, g') :: rest =>
    match expectimaxFuel fuel g' depth false max_depth with
    | none => none
    | some (s, _) => maxFoldFuel fuel rest depth max_depth (if s > acc.1 then (s, some d) else acc)
termination_by (fuel, 1, moves.length)

noncomputable def chanceFoldFuel (fuel : Nat) (cells : List (Nat × Nat)) (total : Nat) (g : Grid)
    (depth max_depth : Nat) (score : EReal) : Option EReal :=
  match cells with
  | [] => some score
  | (r, c) :: rest =>
    match expectimaxFuel fuel (set_tile g r c 2) depth true max_depth with
    | none => none
    | some (s2, _) =>
      match expectimaxFuel fuel (set_tile g r c 4) depth true max_depth with
      | none => none
      | some (s4, _) =>
        chanceFoldFuel fuel rest total g depth max_depth
          (score + ((0.9 / (total : ℝ) : ℝ) : EReal) * s2 + ((0.1 / (total : ℝ) : ℝ) : EReal) * s4)
termination_by (fuel, 1, cells.length)
end

/-! ### Predicates used by the claims -/

/-- A tile is empty or a power of two (the exponent of a power of two is
below the value itself, so the bounded search is exact). -/
def PowerOrZero (v : Nat) : Prop := v = 0 ∨ ∃ k ∈ List.range (v + 1), v = 2 ^ k

/-- A tile is empty or a power of two that is at least 2. -/
def PowerGeTwo (v : Nat) : Prop := v = 0 ∨ (2 ≤ v ∧ ∃ k ∈ List.range (v + 1), v = 2 ^ k)

/-- Every cell of the grid satisfies `P`. -/
def AllCells (P : Nat → Prop) (g : Grid) : Prop := ∀ r ∈ g, ∀ v ∈ r, P v

/-- The grid holds at least one non-empty tile. -/
def HasTile (g : Grid) : Prop := ∃ r ∈ g, ∃ v ∈ r, v ≠ 0

instance : DecidablePred HasTile := fun g => by
  unfold HasTile; infer_instance

instance : DecidablePred PowerOrZero := fun v => by
  unfold PowerOrZero; infer_instance

instance : DecidablePred PowerGeTwo := fun v => by
  unfold PowerGeTwo; infer_instance

instance (P : Nat → Prop) [DecidablePred P] (g : Grid) : Decidable (AllCells P g) := by
  unfold AllCells; infer_instance

/-- The total of all tile values on the board. -/
def gridSum (g : Grid) : Nat := (g.map List.sum).sum

/-! ## Helper lemmas: the merge loop implements the single-pass merge -/

theorem getD_append_len (p : List Nat) (x : Nat) (s : List Nat) :
    (p ++ x :: s).getD p.length 0 = x := by
  rw [List.getD_eq_getElem?_getD, List.getElem?_append_right (Nat.le_refl _)]
  simp

theorem getD_append_len_succ (p : List Nat) (a b : Nat) (s : List Nat) :
    (p ++ a :: b :: s).getD (p.length + 1) 0 = b := by
  rw [List.getD_eq_getElem?_getD, List.getElem?_append_right (by omega)]
  simp

theorem set_append_len (p : List Nat) (x v : Nat) (s : List Nat) :
    (p ++ x :: s).set p.length v = p ++ v :: s := by
  simp [List.set_append]

theorem eraseIdx_append_len (p : List Nat) (l : List Nat) (n : Nat) :
    (p ++ l).eraseIdx (p.length + n) = p ++ l.eraseIdx n := by
  induction p with
  | nil => simp
  | cons a p ih =>
    have h : (a :: p).length + n = (p.length + n) + 1 := by simp; omega
    simp only [h, List.cons_append, List.eraseIdx_cons_succ, ih]

theorem pairMerge_length_le (l : List Nat) : (pairMerge l).length ≤ l.length := by
  induction l using pairMerge.induct with
  | case1 b t ih => simp only [pairMerge, if_pos rfl]; simp; omega
  | case2 a b t hab ih => simp only [pairMerge, if_neg hab]; simpa using ih
  | case3 l h =>
    cases l with
    | nil => simp [pairMerge]
    | cons a t =>
      cases t with
      | nil => simp [pairMerge]
      | cons b t' => exact absurd rfl (h a b t')

theorem pairMerge_nil : pairMerge [] = [] := rfl

theorem pairMerge_single (a : Nat) : pairMerge [a] = [a] := rfl

/-- `normPad l n`: pad `l` with zeros up to length `n`. -/
def normPad (l : List Nat) (n : Nat) : List Nat := l ++ List.replicate (n - l.length) 0

theorem normPad_cons (x : Nat) (l : List Nat) (n : Nat) :
    normPad (x :: l) (n + 1) = x :: normPad l n := by
  simp [normPad]

theorem normPad_length (l : List Nat) (n : Nat) (h : l.length ≤ n) :
    (normPad l n).length = n := by
  simp [normPad]; omega

/-- Appending a zero to the input of the single-pass merge does not change
its zero-padded form. -/
theorem pairMerge_append_zero (t : List Nat) (n : Nat) (h : t.length ≤ n) :
    normPad (pairMerge (t ++ [0])) (n + 1) = normPad (pairMerge t) (n + 1) := by
  induction t using pairMerge.induct generalizing n with
  | case1 b t ih =>
    have e1 : pairMerge ((b :: b :: t) ++ [0]) = b * 2 :: pairMerge (t ++ [0]) := by
      simp [pairMerge]
    have e2 : pairMerge (b :: b :: t) = b * 2 :: pairMerge t := by
      simp [pairMerge]
    simp only [List.length_cons] at h
    obtain ⟨m, rfl⟩ : ∃ m, n = m + 1 := ⟨n - 1, by omega⟩
    rw [e1, e2, show m + 1 + 1 = (m + 1) + 1 from rfl, normPad_cons, normPad_cons,
      ih m (by omega)]
  | case2 a b t hab ih =>
    have e1 : pairMerge ((a :: b :: t) ++ [0]) = a :: pairMerge ((b :: t) ++ [0]) := by
      simp [pairMerge, hab]
    have e2 : pairMerge (a :: b :: t) = a :: pairMerge (b :: t) := by
      simp [pairMerge, hab]
    simp only [List.length_cons] at h
    obtain ⟨m, rfl⟩ : ∃ m, n = m + 1 := ⟨n - 1, by omega⟩
    rw [e1, e2, show m + 1 + 1 = (m + 1) + 1 from rfl, normPad_cons, normPad_cons,
      ih m (by simp; omega)]
  | case3 l hl =>
    cases l with
    | nil =>
      simp [pairMerge, normPad, List.replicate_succ]
    | cons a t =>
      cases t with
      | nil =>
        by_cases ha : a = 0
        · subst ha
          simp [pairMerge, normPad, List.replicate_succ]
        · have e1 : pairMerge ([a] ++ [0]) = [a, 0] := by simp [pairMerge, ha]
          simp only [List.length_cons, List.length_nil] at h
          obtain ⟨m, rfl⟩ : ∃ m, n = m + 1 := ⟨n - 1, by omega⟩
          rw [e1, pairMerge_single, show m + 1 + 1 = (m + 1) + 1 from rfl]
          have e3 : ([a, 0] : List Nat) = a :: [0] := rfl
          rw [e3, normPad_cons, normPad_cons]
          simp [normPad, List.replicate_succ]
      | cons b t' => exact absurd rfl (hl a b t')

/-- The invariant of the `merge_left` while loop: acting at index `|p|` on
`p ++ s`, with enough fuel, it computes the single-pass merge of `s`
padded to the length of `s`. -/
theorem mergeLoop_eq_pairMerge (fuel : Nat) :
    ∀ (s p : List Nat), s.length ≤ fuel + 1 →
      mergeLoop fuel (p ++ s) p.length = p ++ normPad (pairMerge s) s.length := by
  induction fuel with
  | zero =>
    intro s p hs
    match s, hs with
    | [], _ => simp [mergeLoop, normPad, pairMerge]
    | [x], _ => simp [mergeLoop, normPad, pairMerge]
  | succ fuel ih =>
    intro s p hs
    match s with
    | [] =>
      simp [mergeLoop, normPad, pairMerge]
    | [x] =>
      simp [mergeLoop, normPad, pairMerge]
    | a :: b :: t =>
      rw [mergeLoop]
      rw [if_pos (by simp only [List.length_append, List.length_cons]; omega)]
      by_cases hab : a = b
      · subst hab
        have hbody : mergeBody (p ++ a :: a :: t) p.length = (p ++ [a * 2]) ++ (t ++ [0]) := by
          unfold mergeBody
          rw [getD_append_len, getD_append_len_succ, if_pos rfl, set_append_len]
          have h1 : (p ++ a * 2 :: a :: t).eraseIdx (p.length + 1) = p ++ a * 2 :: t :=
            eraseIdx_append_len p (a * 2 :: a :: t) 1
          rw [h1]
          simp
        rw [hbody]
        have hlen : p.length + 1 = (p ++ [a * 2]).length := by simp
        rw [hlen, ih (t ++ [0]) (p ++ [a * 2]) (by simp at hs ⊢; omega)]
        have hz := pairMerge_append_zero t t.length (Nat.le_refl _)
        have hlen2 : (t ++ [0]).length = t.length + 1 := by simp
        rw [hlen2, hz]
        have e2 : pairMerge (a :: a :: t) = a * 2 :: pairMerge t := by simp [pairMerge]
        rw [e2, show (a :: a :: t).length = (t.length + 1) + 1 by simp, normPad_cons]
        simp
      · have hbody : mergeBody (p ++ a :: b :: t) p.length = p ++ a :: b :: t := by
          unfold mergeBody
          rw [getD_append_len, getD_append_len_succ, if_neg hab]
        rw [hbody]
        have hsplit : p ++ a :: b :: t = (p ++ [a]) ++ (b :: t) := by simp
        have hlen : p.length + 1 = (p ++ [a]).length := by simp
        rw [hsplit, hlen, ih (b :: t) (p ++ [a]) (by simp at hs ⊢; omega)]
        have e2 : pairMerge (a :: b :: t) = a :: pairMerge (b :: t) := by simp [pairMerge, hab]
        rw [e2, show (a :: b :: t).length = (b :: t).length + 1 by simp, normPad_cons]
        simp

/-- `merge_row` equals its specification form on rows of length at
most 4. -/
theorem merge_row_eq_spec (row : List Nat) (h : row.length ≤ 4) :
    merge_row row = merge_row_spec row := by
  have hf : (row.filter (fun t => t ≠ 0)).length ≤ 4 :=
    le_trans (List.length_filter_le _ _) h
  have hml := mergeLoop_eq_pairMerge (row.filter (fun t => t ≠ 0)).length
    (row.filter (fun t => t ≠ 0)) [] (by omega)
  simp only [List.nil_append, List.length_nil] at hml
  have hpm := pairMerge_length_le (row.filter (fun t => t ≠ 0))
  simp only [merge_row, merge_row_spec]
  rw [hml, normPad_length _ _ hpm]
  simp only [normPad, List.append_assoc, ← List.replicate_add]
  congr 2
  omega

theorem pairMerge_sum (l : List Nat) : (pairMerge l).sum = l.sum := by
  induction l using pairMerge.induct with
  | case1 b t ih =>
    have e : pairMerge (b :: b :: t) = b * 2 :: pairMerge t := by simp [pairMerge]
    rw [e]; simp [ih]; omega
  | case2 a b t hab ih =>
    have e : pairMerge (a :: b :: t) = a :: pairMerge (b :: t) := by simp [pairMerge, hab]
    rw [e]; simp [ih]
  | case3 l hl =>
    cases l with
    | nil => rfl
    | cons a t =>
      cases t with
      | nil => rfl
      | cons b t' => exact absurd rfl (hl a b t')

theorem pairMerge_mem (l : List Nat) (x : Nat) (hx : x ∈ pairMerge l) :
    ∃ y ∈ l, x = y ∨ x = y * 2 := by
  induction l using pairMerge.induct with
  | case1 b t ih =>
    have e : pairMerge (b :: b :: t) = b * 2 :: pairMerge t := by simp [pairMerge]
    rw [e] at hx
    rcases List.mem_cons.mp hx with h | h
    · exact ⟨b, by simp, Or.inr h⟩
    · obtain ⟨y, hy, hxy⟩ := ih h
      exact ⟨y, by simp [hy], hxy⟩
  | case2 a b t hab ih =>
    have e : pairMerge (a :: b :: t) = a :: pairMerge (b :: t) := by simp [pairMerge, hab]
    rw [e] at hx
    rcases List.mem_cons.mp hx with h | h
    · exact ⟨a, by simp, Or.inl h⟩
    · obtain ⟨y, hy, hxy⟩ := ih h
      exact ⟨y, by simp at hy ⊢; tauto, hxy⟩
  | case3 l hl =>
    cases l with
    | nil => simp [pairMerge] at hx
    | cons a t =>
      cases t with
      | nil =>
        simp [pairMerge] at hx
        exact ⟨a, by simp, Or.inl hx⟩
      | cons b t' => exact absurd rfl (hl a b t')

theorem pairMerge_nonzero (l : List Nat) (h : ∀ x ∈ l, x ≠ 0) :
    ∀ x ∈ pairMerge l, x ≠ 0 := by
  intro x hx
  obtain ⟨y, hy, hxy⟩ := pairMerge_mem l x hx
  have := h y hy
  rcases hxy with rfl | rfl <;> omega

theorem pairMerge_of_chain (l : List Nat) (h : List.Chain' (· ≠ ·) l) :
    pairMerge l = l := by
  induction l using pairMerge.induct with
  | case1 b t ih =>
    exact absurd rfl (List.chain'_cons.mp h).1
  | case2 a b t hab ih =>
    have e : pairMerge (a :: b :: t) = a :: pairMerge (b :: t) := by simp [pairMerge, hab]
    rw [e, ih (List.chain'_cons.mp h).2]
  | case3 l hl =>
    cases l with
    | nil => rfl
    | cons a t =>
      cases t with
      | nil => rfl
      | cons b t' => exact absurd rfl (hl a b t')

theorem chain_of_pairMerge_fixed (l : List Nat) (hfix : pairMerge l = l)
    (h : ∀ x ∈ l, x ≠ 0) : List.Chain' (· ≠ ·) l := by
  induction l using pairMerge.induct with
  | case1 b t ih =>
    have e : pairMerge (b :: b :: t) = b * 2 :: pairMerge t := by simp [pairMerge]
    rw [e] at hfix
    have hb : b * 2 = b := (List.cons.injEq _ _ _ _ ▸ hfix).1
    have : b ≠ 0 := h b (by simp)
    omega
  | case2 a b t hab ih =>
    have e : pairMerge (a :: b :: t) = a :: pairMerge (b :: t) := by simp [pairMerge, hab]
    rw [e] at hfix
    have ht : pairMerge (b :: t) = b :: t := (List.cons.injEq _ _ _ _ ▸ hfix).2
    exact List.chain'_cons.mpr ⟨hab, ih ht (fun x hx => h x (by simp at hx ⊢; tauto))⟩
  | case3 l hl =>
    cases l with
    | nil => simp
    | cons a t =>
      cases t with
      | nil => simp
      | cons b t' => exact absurd rfl (hl a b t')

theorem filter_nonzero_eq_self (l : List Nat) (h : ∀ x ∈ l, x ≠ 0) :
    l.filter (fun t => t ≠ 0) = l := by
  rw [List.filter_eq_self]
  intro a ha
  simpa using h a ha

theorem merge_row_length (row : List Nat) (h : row.length ≤ 4) :
    (merge_row row).length = 4 := by
  rw [merge_row_eq_spec row h]
  have hpm : (pairMerge (row.filter (fun t => t ≠ 0))).length ≤ 4 :=
    le_trans (pairMerge_length_le _) (le_trans (List.length_filter_le _ _) h)
  simp only [merge_row_spec, List.length_append, List.length_replicate]
  omega

theorem sum_filter_nonzero (l : List Nat) : (l.filter (fun t => t ≠ 0)).sum = l.sum := by
  induction l with
  | nil => rfl
  | cons a t ih =>
    rw [List.filter_cons]
    by_cases ha : a = 0
    · rw [if_neg (by simpa using ha), ih, List.sum_cons, ha]
      omega
    · rw [if_pos (by simpa using ha), List.sum_cons, List.sum_cons, ih]

theorem merge_row_sum (row : List Nat) (h : row.length ≤ 4) :
    (merge_row row).sum = row.sum := by
  rw [merge_row_eq_spec row h]
  simp only [merge_row_spec, List.sum_append, pairMerge_sum, sum_filter_nonzero]
  simp

theorem merge_row_mem (row : List Nat) (h : row.length ≤ 4) :
    ∀ x ∈ merge_row row, x = 0 ∨ ∃ y ∈ row, x = y ∨ x = y * 2 := by
  rw [merge_row_eq_spec row h]
  intro x hx
  simp only [merge_row_spec, List.mem_append] at hx
  rcases hx with hx | hx
  · obtain ⟨y, hy, hxy⟩ := pairMerge_mem _ x hx
    exact Or.inr ⟨y, List.mem_of_mem_filter hy, hxy⟩
  · exact Or.inl (List.eq_of_mem_replicate hx)

theorem merge_row_id (row : List Nat) (hlen : row.length = 4)
    (hnz : ∀ x ∈ row, x ≠ 0) (hch : List.Chain' (· ≠ ·) row) :
    merge_row row = row := by
  rw [merge_row_eq_spec row (le_of_eq hlen)]
  simp only [merge_row_spec, filter_nonzero_eq_self row hnz, pairMerge_of_chain row hch, hlen]
  simp

theorem merge_row_fixed_struct (row : List Nat) (hlen : row.length = 4)
    (hfix : merge_row row = row) :
    ∃ m k, row = m ++ List.replicate k 0 ∧ (∀ x ∈ m, x ≠ 0) ∧ List.Chain' (· ≠ ·) m := by
  rw [merge_row_eq_spec row (le_of_eq hlen)] at hfix
  set nr := row.filter (fun t => t ≠ 0) with hnr
  have hnz : ∀ x ∈ pairMerge nr, x ≠ 0 := by
    apply pairMerge_nonzero
    intro x hx
    have := List.of_mem_filter hx
    simpa using this
  refine ⟨pairMerge nr, 4 - (pairMerge nr).length, by rw [← hfix]; rfl, hnz, ?_⟩
  have hfilter : nr = pairMerge nr := by
    conv_lhs => rw [hnr, ← hfix]
    simp only [merge_row_spec]
    rw [List.filter_append]
    rw [filter_nonzero_eq_self _ hnz]
    have : (List.replicate (4 - (pairMerge nr).length) 0).filter (fun t => t ≠ 0) = [] := by
      apply List.filter_eq_nil_iff.mpr
      intro a ha
      simp [List.eq_of_mem_replicate ha]
    rw [← hnr, this, List.append_nil]
  have hnznr : ∀ x ∈ nr, x ≠ 0 := fun x hx => by simpa using List.of_mem_filter hx
  have hchain : List.Chain' (· ≠ ·) nr := chain_of_pairMerge_fixed nr hfilter.symm hnznr
  exact hfilter ▸ hchain

/-! ## Shape and reorientation lemmas -/

theorem list4_shape (l : List Nat) (h : l.length = 4) : ∃ a b c d, l = [a, b, c, d] := by
  match l, h with
  | [a, b, c, d], _ => exact ⟨a, b, c, d, rfl⟩

theorem grid16 (g : Grid) (h : WF g) :
    ∃ a0 a1 a2 a3 b0 b1 b2 b3 c0 c1 c2 c3 d0 d1 d2 d3 : Nat,
      g = [[a0,a1,a2,a3],[b0,b1,b2,b3],[c0,c1,c2,c3],[d0,d1,d2,d3]] := by
  obtain ⟨hlen, hrows⟩ := h
  match g, hlen with
  | [r0, r1, r2, r3], _ =>
    obtain ⟨a0,a1,a2,a3,h0⟩ := list4_shape r0 (hrows r0 (by simp))
    obtain ⟨b0,b1,b2,b3,h1⟩ := list4_shape r1 (hrows r1 (by simp))
    obtain ⟨c0,c1,c2,c3,h2⟩ := list4_shape r2 (hrows r2 (by simp))
    obtain ⟨d0,d1,d2,d3,h3⟩ := list4_shape r3 (hrows r3 (by simp))
    subst h0 h1 h2 h3
    exact ⟨a0,a1,a2,a3,b0,b1,b2,b3,c0,c1,c2,c3,d0,d1,d2,d3, rfl⟩

theorem rotateOnce_lit (a0 a1 a2 a3 b0 b1 b2 b3 c0 c1 c2 c3 d0 d1 d2 d3 : Nat) :
    rotateOnce [[a0,a1,a2,a3],[b0,b1,b2,b3],[c0,c1,c2,c3],[d0,d1,d2,d3]]
    = [[d0,c0,b0,a0],[d1,c1,b1,a1],[d2,c2,b2,a2],[d3,c3,b3,a3]] := rfl

theorem rotate_one_eq (g : Grid) : rotate g 1 = rotateOnce g := by
  have h : ((1 : Int) % 4).toNat = 1 := rfl
  rw [rotate, h, Function.iterate_one]

theorem rotate_neg_one_eq (g : Grid) :
    rotate g (-1) = rotateOnce (rotateOnce (rotateOnce g)) := by
  have h : ((-1 : Int) % 4).toNat = 3 := rfl
  rw [rotate, h, show (3:ℕ) = 2+1 from rfl, Function.iterate_succ_apply',
    show (2:ℕ) = 1+1 from rfl, Function.iterate_succ_apply', Function.iterate_one]

theorem rotate_one_lit (a0 a1 a2 a3 b0 b1 b2 b3 c0 c1 c2 c3 d0 d1 d2 d3 : Nat) :
    rotate [[a0,a1,a2,a3],[b0,b1,b2,b3],[c0,c1,c2,c3],[d0,d1,d2,d3]] 1
    = [[d0,c0,b0,a0],[d1,c1,b1,a1],[d2,c2,b2,a2],[d3,c3,b3,a3]] := by
  rw [rotate_one_eq, rotateOnce_lit]

theorem rotate_neg_one_lit (a0 a1 a2 a3 b0 b1 b2 b3 c0 c1 c2 c3 d0 d1 d2 d3 : Nat) :
    rotate [[a0,a1,a2,a3],[b0,b1,b2,b3],[c0,c1,c2,c3],[d0,d1,d2,d3]] (-1)
    = [[a3,b3,c3,d3],[a2,b2,c2,d2],[a1,b1,c1,d1],[a0,b0,c0,d0]] := by
  rw [rotate_neg_one_eq, rotateOnce_lit, rotateOnce_lit, rotateOnce_lit]

theorem reverse_lit (a0 a1 a2 a3 b0 b1 b2 b3 c0 c1 c2 c3 d0 d1 d2 d3 : Nat) :
    reverse [[a0,a1,a2,a3],[b0,b1,b2,b3],[c0,c1,c2,c3],[d0,d1,d2,d3]]
    = [[a3,a2,a1,a0],[b3,b2,b1,b0],[c3,c2,c1,c0],[d3,d2,d1,d0]] := rfl

theorem toRowsTopDown_lit (a0 a1 a2 a3 b0 b1 b2 b3 c0 c1 c2 c3 d0 d1 d2 d3 : Nat) :
    toRowsTopDown [[a0,a1,a2,a3],[b0,b1,b2,b3],[c0,c1,c2,c3],[d0,d1,d2,d3]]
    = [[a0,b0,c0,d0],[a1,b1,c1,d1],[a2,b2,c2,d2],[a3,b3,c3,d3]] := rfl

theorem toRowsBottomUp_lit (a0 a1 a2 a3 b0 b1 b2 b3 c0 c1 c2 c3 d0 d1 d2 d3 : Nat) :
    toRowsBottomUp [[a0,a1,a2,a3],[b0,b1,b2,b3],[c0,c1,c2,c3],[d0,d1,d2,d3]]
    = [[d0,c0,b0,a0],[d1,c1,b1,a1],[d2,c2,b2,a2],[d3,c3,b3,a3]] := rfl

theorem fromRowsTopDown_lit (a0 a1 a2 a3 b0 b1 b2 b3 c0 c1 c2 c3 d0 d1 d2 d3 : Nat) :
    fromRowsTopDown [[a0,a1,a2,a3],[b0,b1,b2,b3],[c0,c1,c2,c3],[d0,d1,d2,d3]]
    = [[a0,b0,c0,d0],[a1,b1,c1,d1],[a2,b2,c2,d2],[a3,b3,c3,d3]] := rfl

theorem fromRowsBottomUp_lit (a0 a1 a2 a3 b0 b1 b2 b3 c0 c1 c2 c3 d0 d1 d2 d3 : Nat) :
    fromRowsBottomUp [[a0,a1,a2,a3],[b0,b1,b2,b3],[c0,c1,c2,c3],[d0,d1,d2,d3]]
    = [[a3,b3,c3,d3],[a2,b2,c2,d2],[a1,b1,c1,d1],[a0,b0,c0,d0]] := rfl

theorem merge_left_lit (r0 r1 r2 r3 : List Nat) :
    merge_left [r0, r1, r2, r3] = [merge_row r0, merge_row r1, merge_row r2, merge_row r3] := rfl

/-! ## Claim C1 -/

/-- C1, counterexample: on the board with a single `2` in the top-left
corner, `move` toward `up` does not match the reference reorientation
that reads columns top-to-bottom: the code's clockwise rotation makes the
tile fall to the bottom row instead of staying at the top. -/
theorem c1_counterexample :
    ¬ (move [[2,0,0,0],[0,0,0,0],[0,0,0,0],[0,0,0,0]] Dir.up
       = applyMoveRef [[2,0,0,0],[0,0,0,0],[0,0,0,0],[0,0,0,0]] Dir.up) := by decide

/-- C1, amended: for every 4x4 board and direction, `move` equals the
reference implementation that reorients, left-merges every line and then
undoes the reorientation — with `up` reorienting by reading columns
bottom-to-top (not top-to-bottom) and `down` reading columns top-to-bottom
(not bottom-to-top); left and right are as the claim states. -/
theorem c1_theorem (g : Grid) (hwf : WF g) (d : Dir) :
    move g d = applyMoveRefAmended g d := by
  obtain ⟨a0,a1,a2,a3,b0,b1,b2,b3,c0,c1,c2,c3,d0,d1,d2,d3, rfl⟩ := grid16 g hwf
  cases d with
  | left => rfl
  | right => rfl
  | up =>
    obtain ⟨u0,u1,u2,u3,hu⟩ := list4_shape (merge_row [d0,c0,b0,a0]) (merge_row_length _ (by simp))
    obtain ⟨v0,v1,v2,v3,hv⟩ := list4_shape (merge_row [d1,c1,b1,a1]) (merge_row_length _ (by simp))
    obtain ⟨w0,w1,w2,w3,hw⟩ := list4_shape (merge_row [d2,c2,b2,a2]) (merge_row_length _ (by simp))
    obtain ⟨x0,x1,x2,x3,hx⟩ := list4_shape (merge_row [d3,c3,b3,a3]) (merge_row_length _ (by simp))
    show rotate (merge_left (rotate _ 1)) (-1) = fromRowsBottomUp (merge_left (toRowsBottomUp _))
    rw [rotate_one_lit, toRowsBottomUp_lit, merge_left_lit, hu, hv, hw, hx,
      rotate_neg_one_lit, fromRowsBottomUp_lit]
  | down =>
    obtain ⟨u0,u1,u2,u3,hu⟩ := list4_shape (merge_row [a0,b0,c0,d0]) (merge_row_length _ (by simp))
    obtain ⟨v0,v1,v2,v3,hv⟩ := list4_shape (merge_row [a1,b1,c1,d1]) (merge_row_length _ (by simp))
    obtain ⟨w0,w1,w2,w3,hw⟩ := list4_shape (merge_row [a2,b2,c2,d2]) (merge_row_length _ (by simp))
    obtain ⟨x0,x1,x2,x3,hx⟩ := list4_shape (merge_row [a3,b3,c3,d3]) (merge_row_length _ (by simp))
    show rotate (merge_left (rotate _ (-1))) 1 = fromRowsTopDown (merge_left (toRowsTopDown _))
    rw [rotate_neg_one_lit, toRowsTopDown_lit, merge_left_lit, merge_left_lit, hu, hv, hw, hx,
      rotate_one_lit, fromRowsTopDown_lit]

/-- C1, witness: the amended equivalence applied to a concrete board. -/
theorem c1_witness :
    WF [[2,2,0,0],[0,4,0,0],[0,0,8,0],[2,0,0,2]] ∧
    move [[2,2,0,0],[0,4,0,0],[0,0,8,0],[2,0,0,2]] Dir.up
      = applyMoveRefAmended [[2,2,0,0],[0,4,0,0],[0,0,8,0],[2,0,0,2]] Dir.up :=
  ⟨by decide, c1_theorem _ (by decide) Dir.up⟩

/-! ## Claim C3 -/

/-- C3: the per-row pass of `merge_left` first compacts the non-zero
tiles leftward (order preserved), then performs the single pass in which
two equal adjacent tiles merge into their double and a merged tile never
merges again, then pads with trailing zeros to length 4; in particular
`[2,2,2,2] ↦ [4,4,0,0]` (never `[8,0,0,0]`) and `[4,2,2,4] ↦ [4,4,4,0]`. -/
theorem c3_theorem :
    (∀ row : List Nat, row.length = 4 → merge_row row = merge_row_spec row) ∧
    merge_row [2,2,2,2] = [4,4,0,0] ∧ merge_row [2,2,2,2] ≠ [8,0,0,0] ∧
    merge_row [4,2,2,4] = [4,4,4,0] :=
  ⟨fun row h => merge_row_eq_spec row (le_of_eq h), by decide, by decide, by decide⟩

/-- C3, witness: the loop/specification equivalence applied to a concrete
row. -/
theorem c3_witness : merge_row [2,4,4,2] = merge_row_spec [2,4,4,2] :=
  c3_theorem.1 [2,4,4,2] (by decide)

/-! ## Claim C10 -/

/-- C10: every move preserves the total of all tile values. -/
theorem c10_theorem (g : Grid) (hwf : WF g) (d : Dir) :
    gridSum (move g d) = gridSum g := by
  obtain ⟨a0,a1,a2,a3,b0,b1,b2,b3,c0,c1,c2,c3,d0,d1,d2,d3, rfl⟩ := grid16 g hwf
  have rowsum : ∀ p q r s : Nat, (merge_row [p,q,r,s]).sum = p + q + r + s := by
    intro p q r s
    rw [merge_row_sum [p,q,r,s] (by simp)]
    simp [List.sum_cons]
    omega
  cases d with
  | left =>
    obtain ⟨u0,u1,u2,u3,hu⟩ := list4_shape (merge_row [a0,a1,a2,a3]) (merge_row_length _ (by simp))
    obtain ⟨v0,v1,v2,v3,hv⟩ := list4_shape (merge_row [b0,b1,b2,b3]) (merge_row_length _ (by simp))
    obtain ⟨w0,w1,w2,w3,hw⟩ := list4_shape (merge_row [c0,c1,c2,c3]) (merge_row_length _ (by simp))
    obtain ⟨x0,x1,x2,x3,hx⟩ := list4_shape (merge_row [d0,d1,d2,d3]) (merge_row_length _ (by simp))
    have s1 := rowsum a0 a1 a2 a3; have s2 := rowsum b0 b1 b2 b3
    have s3 := rowsum c0 c1 c2 c3; have s4 := rowsum d0 d1 d2 d3
    rw [hu] at s1; rw [hv] at s2; rw [hw] at s3; rw [hx] at s4
    simp only [List.sum_cons, List.sum_nil] at s1 s2 s3 s4
    show gridSum (merge_left _) = _
    rw [merge_left_lit, hu, hv, hw, hx]
    simp only [gridSum, List.map_cons, List.map_nil, List.sum_cons, List.sum_nil]
    omega
  | right =>
    obtain ⟨u0,u1,u2,u3,hu⟩ := list4_shape (merge_row [a3,a2,a1,a0]) (merge_row_length _ (by simp))
    obtain ⟨v0,v1,v2,v3,hv⟩ := list4_shape (merge_row [b3,b2,b1,b0]) (merge_row_length _ (by simp))
    obtain ⟨w0,w1,w2,w3,hw⟩ := list4_shape (merge_row [c3,c2,c1,c0]) (merge_row_length _ (by simp))
    obtain ⟨x0,x1,x2,x3,hx⟩ := list4_shape (merge_row [d3,d2,d1,d0]) (merge_row_length _ (by simp))
    have s1 := rowsum a3 a2 a1 a0; have s2 := rowsum b3 b2 b1 b0
    have s3 := rowsum c3 c2 c1 c0; have s4 := rowsum d3 d2 d1 d0
    rw [hu] at s1; rw [hv] at s2; rw [hw] at s3; rw [hx] at s4
    simp only [List.sum_cons, List.sum_nil] at s1 s2 s3 s4
    show gridSum (reverse (merge_left (reverse _))) = _
    rw [reverse_lit, merge_left_lit, hu, hv, hw, hx, reverse_lit]
    simp only [gridSum, List.map_cons, List.map_nil, List.sum_cons, List.sum_nil]
    omega
  | up =>
    obtain ⟨u0,u1,u2,u3,hu⟩ := list4_shape (merge_row [d0,c0,b0,a0]) (merge_row_length _ (by simp))
    obtain ⟨v0,v1,v2,v3,hv⟩ := list4_shape (merge_row [d1,c1,b1,a1]) (merge_row_length _ (by simp))
    obtain ⟨w0,w1,w2,w3,hw⟩ := list4_shape (merge_row [d2,c2,b2,a2]) (merge_row_length _ (by simp))
    obtain ⟨x0,x1,x2,x3,hx⟩ := list4_shape (merge_row [d3,c3,b3,a3]) (merge_row_length _ (by simp))
    have s1 := rowsum d0 c0 b0 a0; have s2 := rowsum d1 c1 b1 a1
    have s3 := rowsum d2 c2 b2 a2; have s4 := rowsum d3 c3 b3 a3
    rw [hu] at s1; rw [hv] at s2; rw [hw] at s3; rw [hx] at s4
    simp only [List.sum_cons, List.sum_nil] at s1 s2 s3 s4
    show gridSum (rotate (merge_left (rotate _ 1)) (-1)) = _
    rw [rotate_one_lit, merge_left_lit, hu, hv, hw, hx, rotate_neg_one_lit]
    simp only [gridSum, List.map_cons, List.map_nil, List.sum_cons, List.sum_nil]
    omega
  | down =>
    obtain ⟨u0,u1,u2,u3,hu⟩ := list4_shape (merge_row [a3,b3,c3,d3]) (merge_row_length _ (by simp))
    obtain ⟨v0,v1,v2,v3,hv⟩ := list4_shape (merge_row [a2,b2,c2,d2]) (merge_row_length _ (by simp))
    obtain ⟨w0,w1,w2,w3,hw⟩ := list4_shape (merge_row [a1,b1,c1,d1]) (merge_row_length _ (by simp))
    obtain ⟨x0,x1,x2,x3,hx⟩ := list4_shape (merge_row [a0,b0,c0,d0]) (merge_row_length _ (by simp))
    have s1 := rowsum a3 b3 c3 d3; have s2 := rowsum a2 b2 c2 d2
    have s3 := rowsum a1 b1 c1 d1; have s4 := rowsum a0 b0 c0 d0
    rw [hu] at s1; rw [hv] at s2; rw [hw] at s3; rw [hx] at s4
    simp only [List.sum_cons, List.sum_nil] at s1 s2 s3 s4
    show gridSum (rotate (merge_left (rotate _ (-1))) 1) = _
    rw [rotate_neg_one_lit, merge_left_lit, hu, hv, hw, hx, rotate_one_lit]
    simp only [gridSum, List.map_cons, List.map_nil, List.sum_cons, List.sum_nil]
    omega

/-- C10, witness: sum preservation applied to a concrete board and
direction (a board with a merge, a slide and an unchanged row). -/
theorem c10_witness :
    WF [[2,2,4,4],[0,2,0,2],[8,0,0,0],[0,0,0,0]] ∧
    gridSum (move [[2,2,4,4],[0,2,0,2],[8,0,0,0],[0,0,0,0]] Dir.left)
      = gridSum [[2,2,4,4],[0,2,0,2],[8,0,0,0],[0,0,0,0]] :=
  ⟨by decide, c10_theorem _ (by decide) Dir.left⟩

/-! ## Claim C2 -/

set_option maxHeartbeats 1000000 in
theorem game_over_lit_iff (a0 a1 a2 a3 b0 b1 b2 b3 c0 c1 c2 c3 d0 d1 d2 d3 : Nat) :
    game_over [[a0,a1,a2,a3],[b0,b1,b2,b3],[c0,c1,c2,c3],[d0,d1,d2,d3]] = true ↔
    ((a0 ≠ 0 ∧ a1 ≠ 0 ∧ a2 ≠ 0 ∧ a3 ≠ 0 ∧ b0 ≠ 0 ∧ b1 ≠ 0 ∧ b2 ≠ 0 ∧ b3 ≠ 0 ∧
      c0 ≠ 0 ∧ c1 ≠ 0 ∧ c2 ≠ 0 ∧ c3 ≠ 0 ∧ d0 ≠ 0 ∧ d1 ≠ 0 ∧ d2 ≠ 0 ∧ d3 ≠ 0) ∧
     (a0 ≠ a1 ∧ a1 ≠ a2 ∧ a2 ≠ a3 ∧ b0 ≠ b1 ∧ b1 ≠ b2 ∧ b2 ≠ b3 ∧
      c0 ≠ c1 ∧ c1 ≠ c2 ∧ c2 ≠ c3 ∧ d0 ≠ d1 ∧ d1 ≠ d2 ∧ d2 ≠ d3) ∧
     (a0 ≠ b0 ∧ b0 ≠ c0 ∧ c0 ≠ d0 ∧ a1 ≠ b1 ∧ b1 ≠ c1 ∧ c1 ≠ d1 ∧
      a2 ≠ b2 ∧ b2 ≠ c2 ∧ c2 ≠ d2 ∧ a3 ≠ b3 ∧ b3 ≠ c3 ∧ c3 ≠ d3)) := by
  show (if _ then false else if _ then false else true) = true ↔ _
  rw [show (List.range 4) = [0,1,2,3] from rfl]
  simp [game_over, cell, List.contains]
  tauto

theorem hastile_lit (a0 a1 a2 a3 b0 b1 b2 b3 c0 c1 c2 c3 d0 d1 d2 d3 : Nat) :
    HasTile [[a0,a1,a2,a3],[b0,b1,b2,b3],[c0,c1,c2,c3],[d0,d1,d2,d3]] ↔
    (a0 ≠ 0 ∨ a1 ≠ 0 ∨ a2 ≠ 0 ∨ a3 ≠ 0 ∨ b0 ≠ 0 ∨ b1 ≠ 0 ∨ b2 ≠ 0 ∨ b3 ≠ 0 ∨
     c0 ≠ 0 ∨ c1 ≠ 0 ∨ c2 ≠ 0 ∨ c3 ≠ 0 ∨ d0 ≠ 0 ∨ d1 ≠ 0 ∨ d2 ≠ 0 ∨ d3 ≠ 0) := by
  simp [HasTile]
  tauto

theorem possible_moves_nil_iff (g : Grid) :
    get_possible_moves g = [] ↔
    (move g Dir.up = g ∧ move g Dir.down = g ∧ move g Dir.left = g ∧ move g Dir.right = g) := by
  simp [get_possible_moves, List.filter_eq_nil_iff]

theorem quad_facts (a b c d : Nat) (h : merge_row [a,b,c,d] = [a,b,c,d]) :
    ((a = 0 → b = 0) ∧ (b = 0 → c = 0) ∧ (c = 0 → d = 0)) ∧
    (a ≠ 0 → b ≠ 0 → c ≠ 0 → d ≠ 0 → (a ≠ b ∧ b ≠ c ∧ c ≠ d)) := by
  obtain ⟨m, k, heq, hnz, hch⟩ := merge_row_fixed_struct [a,b,c,d] (by simp) h
  rcases m with _ | ⟨x1, m⟩
  · have hk : k = 4 := by have hl := congrArg List.length heq; simp at hl; omega
    subst hk
    simp only [List.nil_append, show List.replicate 4 (0:Nat) = [0,0,0,0] from rfl,
      List.cons.injEq, and_true] at heq
    omega
  rcases m with _ | ⟨x2, m⟩
  · have hk : k = 3 := by have hl := congrArg List.length heq; simp at hl; omega
    subst hk
    simp only [show List.replicate 3 (0:Nat) = [0,0,0] from rfl, List.cons_append,
      List.nil_append, List.cons.injEq, and_true] at heq
    have hx1 : x1 ≠ 0 := hnz x1 (by simp)
    omega
  rcases m with _ | ⟨x3, m⟩
  · have hk : k = 2 := by have hl := congrArg List.length heq; simp at hl; omega
    subst hk
    simp only [show List.replicate 2 (0:Nat) = [0,0] from rfl, List.cons_append,
      List.nil_append, List.cons.injEq, and_true] at heq
    have hx1 : x1 ≠ 0 := hnz x1 (by simp)
    have hx2 : x2 ≠ 0 := hnz x2 (by simp)
    omega
  rcases m with _ | ⟨x4, m⟩
  · have hk : k = 1 := by have hl := congrArg List.length heq; simp at hl; omega
    subst hk
    simp only [show List.replicate 1 (0:Nat) = [0] from rfl, List.cons_append,
      List.nil_append, List.cons.injEq, and_true] at heq
    have hx1 : x1 ≠ 0 := hnz x1 (by simp)
    have hx2 : x2 ≠ 0 := hnz x2 (by simp)
    have hx3 : x3 ≠ 0 := hnz x3 (by simp)
    omega
  rcases m with _ | ⟨x5, m⟩
  · have hk : k = 0 := by have hl := congrArg List.length heq; simp at hl; omega
    subst hk
    simp only [show List.replicate 0 (0:Nat) = [] from rfl, List.append_nil,
      List.cons.injEq, and_true] at heq
    obtain ⟨rfl, rfl, rfl, rfl⟩ := heq
    have hx1 : a ≠ 0 := hnz a (by simp)
    have hx2 : b ≠ 0 := hnz b (by simp)
    have hx3 : c ≠ 0 := hnz c (by simp)
    have hx4 : d ≠ 0 := hnz d (by simp)
    simp only [List.chain'_cons, List.chain'_singleton, and_true] at hch
    omega
  · exfalso
    have hlen := congrArg List.length heq
    simp at hlen

theorem move_left_fix_iff (a0 a1 a2 a3 b0 b1 b2 b3 c0 c1 c2 c3 d0 d1 d2 d3 : Nat) :
    move [[a0,a1,a2,a3],[b0,b1,b2,b3],[c0,c1,c2,c3],[d0,d1,d2,d3]] Dir.left
      = [[a0,a1,a2,a3],[b0,b1,b2,b3],[c0,c1,c2,c3],[d0,d1,d2,d3]] ↔
    (merge_row [a0,a1,a2,a3] = [a0,a1,a2,a3] ∧ merge_row [b0,b1,b2,b3] = [b0,b1,b2,b3] ∧
     merge_row [c0,c1,c2,c3] = [c0,c1,c2,c3] ∧ merge_row [d0,d1,d2,d3] = [d0,d1,d2,d3]) := by
  show merge_left _ = _ ↔ _
  rw [merge_left_lit]
  simp [List.cons.injEq]

theorem move_right_fix_iff (a0 a1 a2 a3 b0 b1 b2 b3 c0 c1 c2 c3 d0 d1 d2 d3 : Nat) :
    move [[a0,a1,a2,a3],[b0,b1,b2,b3],[c0,c1,c2,c3],[d0,d1,d2,d3]] Dir.right
      = [[a0,a1,a2,a3],[b0,b1,b2,b3],[c0,c1,c2,c3],[d0,d1,d2,d3]] ↔
    (merge_row [a3,a2,a1,a0] = [a3,a2,a1,a0] ∧ merge_row [b3,b2,b1,b0] = [b3,b2,b1,b0] ∧
     merge_row [c3,c2,c1,c0] = [c3,c2,c1,c0] ∧ merge_row [d3,d2,d1,d0] = [d3,d2,d1,d0]) := by
  obtain ⟨u0,u1,u2,u3,hu⟩ := list4_shape (merge_row [a3,a2,a1,a0]) (merge_row_length _ (by simp))
  obtain ⟨v0,v1,v2,v3,hv⟩ := list4_shape (merge_row [b3,b2,b1,b0]) (merge_row_length _ (by simp))
  obtain ⟨w0,w1,w2,w3,hw⟩ := list4_shape (merge_row [c3,c2,c1,c0]) (merge_row_length _ (by simp))
  obtain ⟨x0,x1,x2,x3,hx⟩ := list4_shape (merge_row [d3,d2,d1,d0]) (merge_row_length _ (by simp))
  show reverse (merge_left (reverse _)) = _ ↔ _
  rw [reverse_lit, merge_left_lit, hu, hv, hw, hx, reverse_lit]
  simp only [List.cons.injEq, and_true]
  constructor <;> intro hh <;> omega

theorem move_up_fix_iff (a0 a1 a2 a3 b0 b1 b2 b3 c0 c1 c2 c3 d0 d1 d2 d3 : Nat) :
    move [[a0,a1,a2,a3],[b0,b1,b2,b3],[c0,c1,c2,c3],[d0,d1,d2,d3]] Dir.up
      = [[a0,a1,a2,a3],[b0,b1,b2,b3],[c0,c1,c2,c3],[d0,d1,d2,d3]] ↔
    (merge_row [d0,c0,b0,a0] = [d0,c0,b0,a0] ∧ merge_row [d1,c1,b1,a1] = [d1,c1,b1,a1] ∧
     merge_row [d2,c2,b2,a2] = [d2,c2,b2,a2] ∧ merge_row [d3,c3,b3,a3] = [d3,c3,b3,a3]) := by
  obtain ⟨u0,u1,u2,u3,hu⟩ := list4_shape (merge_row [d0,c0,b0,a0]) (merge_row_length _ (by simp))
  obtain ⟨v0,v1,v2,v3,hv⟩ := list4_shape (merge_row [d1,c1,b1,a1]) (merge_row_length _ (by simp))
  obtain ⟨w0,w1,w2,w3,hw⟩ := list4_shape (merge_row [d2,c2,b2,a2]) (merge_row_length _ (by simp))
  obtain ⟨x0,x1,x2,x3,hx⟩ := list4_shape (merge_row [d3,c3,b3,a3]) (merge_row_length _ (by simp))
  show rotate (merge_left (rotate _ 1)) (-1) = _ ↔ _
  rw [rotate_one_lit, merge_left_lit, hu, hv, hw, hx, rotate_neg_one_lit]
  simp only [List.cons.injEq, and_true]
  constructor <;> intro hh <;> omega

theorem move_down_fix_iff (a0 a1 a2 a3 b0 b1 b2 b3 c0 c1 c2 c3 d0 d1 d2 d3 : Nat) :
    move [[a0,a1,a2,a3],[b0,b1,b2,b3],[c0,c1,c2,c3],[d0,d1,d2,d3]] Dir.down
      = [[a0,a1,a2,a3],[b0,b1,b2,b3],[c0,c1,c2,c3],[d0,d1,d2,d3]] ↔
    (merge_row [a0,b0,c0,d0] = [a0,b0,c0,d0] ∧ merge_row [a1,b1,c1,d1] = [a1,b1,c1,d1] ∧
     merge_row [a2,b2,c2,d2] = [a2,b2,c2,d2] ∧ merge_row [a3,b3,c3,d3] = [a3,b3,c3,d3]) := by
  obtain ⟨u0,u1,u2,u3,hu⟩ := list4_shape (merge_row [a3,b3,c3,d3]) (merge_row_length _ (by simp))
  obtain ⟨v0,v1,v2,v3,hv⟩ := list4_shape (merge_row [a2,b2,c2,d2]) (merge_row_length _ (by simp))
  obtain ⟨w0,w1,w2,w3,hw⟩ := list4_shape (merge_row [a1,b1,c1,d1]) (merge_row_length _ (by simp))
  obtain ⟨x0,x1,x2,x3,hx⟩ := list4_shape (merge_row [a0,b0,c0,d0]) (merge_row_length _ (by simp))
  show rotate (merge_left (rotate _ (-1))) 1 = _ ↔ _
  rw [rotate_neg_one_lit, merge_left_lit, hu, hv, hw, hx, rotate_one_lit]
  simp only [List.cons.injEq, and_true]
  constructor <;> intro hh <;> omega

theorem all_or_none (a b c d : Nat)
    (hf : (a = 0 → b = 0) ∧ (b = 0 → c = 0) ∧ (c = 0 → d = 0))
    (hr : (d = 0 → c = 0) ∧ (c = 0 → b = 0) ∧ (b = 0 → a = 0)) :
    (a = 0 ∧ b = 0 ∧ c = 0 ∧ d = 0) ∨ (a ≠ 0 ∧ b ≠ 0 ∧ c ≠ 0 ∧ d ≠ 0) := by
  omega

theorem grid_no_zero (a0 a1 a2 a3 b0 b1 b2 b3 c0 c1 c2 c3 d0 d1 d2 d3 : Nat)
    (hA0 : (a0 = 0 ∧ a1 = 0 ∧ a2 = 0 ∧ a3 = 0) ∨ (a0 ≠ 0 ∧ a1 ≠ 0 ∧ a2 ≠ 0 ∧ a3 ≠ 0))
    (hA1 : (b0 = 0 ∧ b1 = 0 ∧ b2 = 0 ∧ b3 = 0) ∨ (b0 ≠ 0 ∧ b1 ≠ 0 ∧ b2 ≠ 0 ∧ b3 ≠ 0))
    (hA2 : (c0 = 0 ∧ c1 = 0 ∧ c2 = 0 ∧ c3 = 0) ∨ (c0 ≠ 0 ∧ c1 ≠ 0 ∧ c2 ≠ 0 ∧ c3 ≠ 0))
    (hA3 : (d0 = 0 ∧ d1 = 0 ∧ d2 = 0 ∧ d3 = 0) ∨ (d0 ≠ 0 ∧ d1 ≠ 0 ∧ d2 ≠ 0 ∧ d3 ≠ 0))
    (hC0 : (a0 = 0 ∧ b0 = 0 ∧ c0 = 0 ∧ d0 = 0) ∨ (a0 ≠ 0 ∧ b0 ≠ 0 ∧ c0 ≠ 0 ∧ d0 ≠ 0))
    (hC1 : (a1 = 0 ∧ b1 = 0 ∧ c1 = 0 ∧ d1 = 0) ∨ (a1 ≠ 0 ∧ b1 ≠ 0 ∧ c1 ≠ 0 ∧ d1 ≠ 0))
    (hC2 : (a2 = 0 ∧ b2 = 0 ∧ c2 = 0 ∧ d2 = 0) ∨ (a2 ≠ 0 ∧ b2 ≠ 0 ∧ c2 ≠ 0 ∧ d2 ≠ 0))
    (hC3 : (a3 = 0 ∧ b3 = 0 ∧ c3 = 0 ∧ d3 = 0) ∨ (a3 ≠ 0 ∧ b3 ≠ 0 ∧ c3 ≠ 0 ∧ d3 ≠ 0))
    (ht : a0 ≠ 0 ∨ a1 ≠ 0 ∨ a2 ≠ 0 ∨ a3 ≠ 0 ∨ b0 ≠ 0 ∨ b1 ≠ 0 ∨ b2 ≠ 0 ∨ b3 ≠ 0 ∨
          c0 ≠ 0 ∨ c1 ≠ 0 ∨ c2 ≠ 0 ∨ c3 ≠ 0 ∨ d0 ≠ 0 ∨ d1 ≠ 0 ∨ d2 ≠ 0 ∨ d3 ≠ 0) :
    a0 ≠ 0 ∧ a1 ≠ 0 ∧ a2 ≠ 0 ∧ a3 ≠ 0 ∧ b0 ≠ 0 ∧ b1 ≠ 0 ∧ b2 ≠ 0 ∧ b3 ≠ 0 ∧
    c0 ≠ 0 ∧ c1 ≠ 0 ∧ c2 ≠ 0 ∧ c3 ≠ 0 ∧ d0 ≠ 0 ∧ d1 ≠ 0 ∧ d2 ≠ 0 ∧ d3 ≠ 0 := by
  have hAor : (a0 ≠ 0 ∧ a1 ≠ 0 ∧ a2 ≠ 0 ∧ a3 ≠ 0) ∨ (b0 ≠ 0 ∧ b1 ≠ 0 ∧ b2 ≠ 0 ∧ b3 ≠ 0) ∨
      (c0 ≠ 0 ∧ c1 ≠ 0 ∧ c2 ≠ 0 ∧ c3 ≠ 0) ∨ (d0 ≠ 0 ∧ d1 ≠ 0 ∧ d2 ≠ 0 ∧ d3 ≠ 0) := by
    rcases ht with h|h|h|h|h|h|h|h|h|h|h|h|h|h|h|h
    · exact Or.inl (hA0.resolve_left (fun hc => h hc.1))
    · exact Or.inl (hA0.resolve_left (fun hc => h hc.2.1))
    · exact Or.inl (hA0.resolve_left (fun hc => h hc.2.2.1))
    · exact Or.inl (hA0.resolve_left (fun hc => h hc.2.2.2))
    · exact Or.inr (Or.inl (hA1.resolve_left (fun hc => h hc.1)))
    · exact Or.inr (Or.inl (hA1.resolve_left (fun hc => h hc.2.1)))
    · exact Or.inr (Or.inl (hA1.resolve_left (fun hc => h hc.2.2.1)))
    · exact Or.inr (Or.inl (hA1.resolve_left (fun hc => h hc.2.2.2)))
    · exact Or.inr (Or.inr (Or.inl (hA2.resolve_left (fun hc => h hc.1))))
    · exact Or.inr (Or.inr (Or.inl (hA2.resolve_left (fun hc => h hc.2.1))))
    · exact Or.inr (Or.inr (Or.inl (hA2.resolve_left (fun hc => h hc.2.2.1))))
    · exact Or.inr (Or.inr (Or.inl (hA2.resolve_left (fun hc => h hc.2.2.2))))
    · exact Or.inr (Or.inr (Or.inr (hA3.resolve_left (fun hc => h hc.1))))
    · exact Or.inr (Or.inr (Or.inr (hA3.resolve_left (fun hc => h hc.2.1))))
    · exact Or.inr (Or.inr (Or.inr (hA3.resolve_left (fun hc => h hc.2.2.1))))
    · exact Or.inr (Or.inr (Or.inr (hA3.resolve_left (fun hc => h hc.2.2.2))))
  have assemble : (a0 ≠ 0 ∧ b0 ≠ 0 ∧ c0 ≠ 0 ∧ d0 ≠ 0) → (a1 ≠ 0 ∧ b1 ≠ 0 ∧ c1 ≠ 0 ∧ d1 ≠ 0) →
      (a2 ≠ 0 ∧ b2 ≠ 0 ∧ c2 ≠ 0 ∧ d2 ≠ 0) → (a3 ≠ 0 ∧ b3 ≠ 0 ∧ c3 ≠ 0 ∧ d3 ≠ 0) →
      a0 ≠ 0 ∧ a1 ≠ 0 ∧ a2 ≠ 0 ∧ a3 ≠ 0 ∧ b0 ≠ 0 ∧ b1 ≠ 0 ∧ b2 ≠ 0 ∧ b3 ≠ 0 ∧
      c0 ≠ 0 ∧ c1 ≠ 0 ∧ c2 ≠ 0 ∧ c3 ≠ 0 ∧ d0 ≠ 0 ∧ d1 ≠ 0 ∧ d2 ≠ 0 ∧ d3 ≠ 0 :=
    fun k0 k1 k2 k3 =>
      ⟨k0.1, k1.1, k2.1, k3.1, k0.2.1, k1.2.1, k2.2.1, k3.2.1,
       k0.2.2.1, k1.2.2.1, k2.2.2.1, k3.2.2.1, k0.2.2.2, k1.2.2.2, k2.2.2.2, k3.2.2.2⟩
  rcases hAor with ⟨h0,h1,h2,h3⟩ | ⟨h0,h1,h2,h3⟩ | ⟨h0,h1,h2,h3⟩ | ⟨h0,h1,h2,h3⟩
  · exact assemble (hC0.resolve_left (fun hc => h0 hc.1)) (hC1.resolve_left (fun hc => h1 hc.1))
      (hC2.resolve_left (fun hc => h2 hc.1)) (hC3.resolve_left (fun hc => h3 hc.1))
  · exact assemble (hC0.resolve_left (fun hc => h0 hc.2.1)) (hC1.resolve_left (fun hc => h1 hc.2.1))
      (hC2.resolve_left (fun hc => h2 hc.2.1)) (hC3.resolve_left (fun hc => h3 hc.2.1))
  · exact assemble (hC0.resolve_left (fun hc => h0 hc.2.2.1))
      (hC1.resolve_left (fun hc => h1 hc.2.2.1)) (hC2.resolve_left (fun hc => h2 hc.2.2.1))
      (hC3.resolve_left (fun hc => h3 hc.2.2.1))
  · exact assemble (hC0.resolve_left (fun hc => h0 hc.2.2.2))
      (hC1.resolve_left (fun hc => h1 hc.2.2.2)) (hC2.resolve_left (fun hc => h2 hc.2.2.2))
      (hC3.resolve_left (fun hc => h3 hc.2.2.2))

/-- Identity of the row pass on a fully non-zero row with distinct
adjacent values. -/
theorem quad_id (a b c d : Nat) (ha : a ≠ 0) (hb : b ≠ 0) (hc : c ≠ 0) (hd : d ≠ 0)
    (h1 : a ≠ b) (h2 : b ≠ c) (h3 : c ≠ d) : merge_row [a,b,c,d] = [a,b,c,d] :=
  merge_row_id _ (by simp) (by simp [ha, hb, hc, hd])
    (by simp [List.chain'_cons, List.chain'_singleton]; exact ⟨h1, h2, h3⟩)

/-- C2, counterexample: on the all-zero board (each cell is zero, hence
zero-or-power-of-two), `game_over` is false (there are empty cells) yet no
move changes the board, so `get_possible_moves` is empty; the claimed
equivalence fails. -/
theorem c2_counterexample :
    ¬ (game_over [[0,0,0,0],[0,0,0,0],[0,0,0,0],[0,0,0,0]] = true ↔
       get_possible_moves [[0,0,0,0],[0,0,0,0],[0,0,0,0],[0,0,0,0]] = []) := by decide

set_option maxHeartbeats 1600000 in
/-- C2, amended: for every 4x4 board whose cells are each zero or a power
of two and that carries at least one non-zero tile, `game_over` is true
iff `get_possible_moves` is empty. -/
theorem c2_theorem (g : Grid) (hwf : WF g) (hpow : AllCells PowerOrZero g)
    (ht : HasTile g) : (game_over g = true ↔ get_possible_moves g = []) := by
  clear hpow
  obtain ⟨a0,a1,a2,a3,b0,b1,b2,b3,c0,c1,c2,c3,d0,d1,d2,d3, rfl⟩ := grid16 g hwf
  rw [hastile_lit] at ht
  rw [possible_moves_nil_iff, game_over_lit_iff, move_left_fix_iff, move_right_fix_iff,
    move_up_fix_iff, move_down_fix_iff]
  constructor
  · intro hgo
    clear ht
    obtain ⟨⟨z00,z01,z02,z03,z10,z11,z12,z13,z20,z21,z22,z23,z30,z31,z32,z33⟩,
      ⟨r0,r1,r2,r3,r4,r5,r6,r7,r8,r9,r10,r11⟩,
      q0,q1,q2,q3,q4,q5,q6,q7,q8,q9,q10,q11⟩ := hgo
    exact ⟨⟨quad_id _ _ _ _ z30 z20 z10 z00 (Ne.symm q2) (Ne.symm q1) (Ne.symm q0),
            quad_id _ _ _ _ z31 z21 z11 z01 (Ne.symm q5) (Ne.symm q4) (Ne.symm q3),
            quad_id _ _ _ _ z32 z22 z12 z02 (Ne.symm q8) (Ne.symm q7) (Ne.symm q6),
            quad_id _ _ _ _ z33 z23 z13 z03 (Ne.symm q11) (Ne.symm q10) (Ne.symm q9)⟩,
           ⟨quad_id _ _ _ _ z00 z10 z20 z30 q0 q1 q2,
            quad_id _ _ _ _ z01 z11 z21 z31 q3 q4 q5,
            quad_id _ _ _ _ z02 z12 z22 z32 q6 q7 q8,
            quad_id _ _ _ _ z03 z13 z23 z33 q9 q10 q11⟩,
           ⟨quad_id _ _ _ _ z00 z01 z02 z03 r0 r1 r2,
            quad_id _ _ _ _ z10 z11 z12 z13 r3 r4 r5,
            quad_id _ _ _ _ z20 z21 z22 z23 r6 r7 r8,
            quad_id _ _ _ _ z30 z31 z32 z33 r9 r10 r11⟩,
           quad_id _ _ _ _ z03 z02 z01 z00 (Ne.symm r2) (Ne.symm r1) (Ne.symm r0),
           quad_id _ _ _ _ z13 z12 z11 z10 (Ne.symm r5) (Ne.symm r4) (Ne.symm r3),
           quad_id _ _ _ _ z23 z22 z21 z20 (Ne.symm r8) (Ne.symm r7) (Ne.symm r6),
           quad_id _ _ _ _ z33 z32 z31 z30 (Ne.symm r11) (Ne.symm r10) (Ne.symm r9)⟩
  · intro hfix
    obtain ⟨⟨hU0, hU1, hU2, hU3⟩, ⟨hD0, hD1, hD2, hD3⟩, ⟨hL0, hL1, hL2, hL3⟩,
      hR0, hR1, hR2, hR3⟩ := hfix
    have fU0 := quad_facts _ _ _ _ hU0; have fU1 := quad_facts _ _ _ _ hU1
    have fU2 := quad_facts _ _ _ _ hU2; have fU3 := quad_facts _ _ _ _ hU3
    have fD0 := quad_facts _ _ _ _ hD0; have fD1 := quad_facts _ _ _ _ hD1
    have fD2 := quad_facts _ _ _ _ hD2; have fD3 := quad_facts _ _ _ _ hD3
    have fL0 := quad_facts _ _ _ _ hL0; have fL1 := quad_facts _ _ _ _ hL1
    have fL2 := quad_facts _ _ _ _ hL2; have fL3 := quad_facts _ _ _ _ hL3
    have fR0 := quad_facts _ _ _ _ hR0; have fR1 := quad_facts _ _ _ _ hR1
    have fR2 := quad_facts _ _ _ _ hR2; have fR3 := quad_facts _ _ _ _ hR3
    obtain ⟨n00,n01,n02,n03,n10,n11,n12,n13,n20,n21,n22,n23,n30,n31,n32,n33⟩ :=
      grid_no_zero a0 a1 a2 a3 b0 b1 b2 b3 c0 c1 c2 c3 d0 d1 d2 d3
        (all_or_none _ _ _ _ fL0.1 fR0.1) (all_or_none _ _ _ _ fL1.1 fR1.1)
        (all_or_none _ _ _ _ fL2.1 fR2.1) (all_or_none _ _ _ _ fL3.1 fR3.1)
        (all_or_none _ _ _ _ fD0.1 fU0.1) (all_or_none _ _ _ _ fD1.1 fU1.1)
        (all_or_none _ _ _ _ fD2.1 fU2.1) (all_or_none _ _ _ _ fD3.1 fU3.1) ht
    have dL0 := fL0.2 n00 n01 n02 n03
    have dL1 := fL1.2 n10 n11 n12 n13
    have dL2 := fL2.2 n20 n21 n22 n23
    have dL3 := fL3.2 n30 n31 n32 n33
    have dD0 := fD0.2 n00 n10 n20 n30
    have dD1 := fD1.2 n01 n11 n21 n31
    have dD2 := fD2.2 n02 n12 n22 n32
    have dD3 := fD3.2 n03 n13 n23 n33
    exact ⟨⟨n00,n01,n02,n03,n10,n11,n12,n13,n20,n21,n22,n23,n30,n31,n32,n33⟩,
      ⟨dL0.1, dL0.2.1, dL0.2.2, dL1.1, dL1.2.1, dL1.2.2, dL2.1, dL2.2.1, dL2.2.2,
       dL3.1, dL3.2.1, dL3.2.2⟩,
      ⟨dD0.1, dD0.2.1, dD0.2.2, dD1.1, dD1.2.1, dD1.2.2, dD2.1, dD2.2.1, dD2.2.2,
       dD3.1, dD3.2.1, dD3.2.2⟩⟩

/-- C2, witness: the amended equivalence applied to a concrete terminal
board (a checkerboard of 2s and 4s). -/
theorem c2_witness :
    (WF [[2,4,2,4],[4,2,4,2],[2,4,2,4],[4,2,4,2]] ∧
     AllCells PowerOrZero [[2,4,2,4],[4,2,4,2],[2,4,2,4],[4,2,4,2]] ∧
     HasTile [[2,4,2,4],[4,2,4,2],[2,4,2,4],[4,2,4,2]]) ∧
    (game_over [[2,4,2,4],[4,2,4,2],[2,4,2,4],[4,2,4,2]] = true ↔
     get_possible_moves [[2,4,2,4],[4,2,4,2],[2,4,2,4],[4,2,4,2]] = []) :=
  ⟨⟨by decide, by decide, by decide⟩,
   c2_theorem _ (by decide) (by decide) (by decide)⟩

/-! ## Claim C8 -/

theorem powerGeTwo_double (y : Nat) (h : PowerGeTwo y) : PowerGeTwo (y * 2) := by
  rcases h with rfl | ⟨h2, k, hk, hy⟩
  · exact Or.inl rfl
  · refine Or.inr ⟨by omega, k + 1, ?_, by rw [hy, pow_succ]⟩
    simp only [List.mem_range] at hk ⊢
    omega

theorem merge_row_powers (row : List Nat) (hlen : row.length ≤ 4)
    (h : ∀ x ∈ row, PowerGeTwo x) : ∀ x ∈ merge_row row, PowerGeTwo x := by
  intro x hx
  rcases merge_row_mem row hlen x hx with rfl | ⟨y, hy, hxy | hxy⟩
  · exact Or.inl rfl
  · rw [hxy]; exact h y hy
  · rw [hxy]; exact powerGeTwo_double y (h y hy)

theorem allcells_lit_iff (P : Nat → Prop)
    (a0 a1 a2 a3 b0 b1 b2 b3 c0 c1 c2 c3 d0 d1 d2 d3 : Nat) :
    AllCells P [[a0,a1,a2,a3],[b0,b1,b2,b3],[c0,c1,c2,c3],[d0,d1,d2,d3]] ↔
    (P a0 ∧ P a1 ∧ P a2 ∧ P a3) ∧ (P b0 ∧ P b1 ∧ P b2 ∧ P b3) ∧
    (P c0 ∧ P c1 ∧ P c2 ∧ P c3) ∧ (P d0 ∧ P d1 ∧ P d2 ∧ P d3) := by
  constructor
  · intro h
    exact ⟨⟨h [a0,a1,a2,a3] (by simp) a0 (by simp), h [a0,a1,a2,a3] (by simp) a1 (by simp),
            h [a0,a1,a2,a3] (by simp) a2 (by simp), h [a0,a1,a2,a3] (by simp) a3 (by simp)⟩,
           ⟨h [b0,b1,b2,b3] (by simp) b0 (by simp), h [b0,b1,b2,b3] (by simp) b1 (by simp),
            h [b0,b1,b2,b3] (by simp) b2 (by simp), h [b0,b1,b2,b3] (by simp) b3 (by simp)⟩,
           ⟨h [c0,c1,c2,c3] (by simp) c0 (by simp), h [c0,c1,c2,c3] (by simp) c1 (by simp),
            h [c0,c1,c2,c3] (by simp) c2 (by simp), h [c0,c1,c2,c3] (by simp) c3 (by simp)⟩,
           h [d0,d1,d2,d3] (by simp) d0 (by simp), h [d0,d1,d2,d3] (by simp) d1 (by simp),
           h [d0,d1,d2,d3] (by simp) d2 (by simp), h [d0,d1,d2,d3] (by simp) d3 (by simp)⟩
  · rintro ⟨⟨h1,h2,h3,h4⟩, ⟨h5,h6,h7,h8⟩, ⟨h9,h10,h11,h12⟩, h13,h14,h15,h16⟩ r hr x hx
    simp only [List.mem_cons, List.not_mem_nil, or_false] at hr
    rcases hr with rfl | rfl | rfl | rfl <;> simp at hx <;> rcases hx with rfl | rfl | rfl | rfl <;>
      assumption

theorem quad_powers_of_fact (P : Nat → Prop) (p q r s : Nat) (u0 u1 u2 u3 : Nat)
    (hshape : merge_row [p,q,r,s] = [u0,u1,u2,u3])
    (hp : P p) (hq : P q) (hr : P r) (hs : P s)
    (hpres : ∀ row : List Nat, row.length ≤ 4 → (∀ x ∈ row, P x) → ∀ x ∈ merge_row row, P x) :
    P u0 ∧ P u1 ∧ P u2 ∧ P u3 := by
  have h := hpres [p,q,r,s] (by simp) (by
    intro x hx
    simp at hx
    rcases hx with rfl | rfl | rfl | rfl <;> assumption)
  rw [hshape] at h
  exact ⟨h u0 (by simp), h u1 (by simp), h u2 (by simp), h u3 (by simp)⟩

theorem move_powers (g : Grid) (hwf : WF g) (hp : AllCells PowerGeTwo g) (d : Dir) :
    AllCells PowerGeTwo (move g d) := by
  obtain ⟨a0,a1,a2,a3,b0,b1,b2,b3,c0,c1,c2,c3,d0,d1,d2,d3, rfl⟩ := grid16 g hwf
  rw [allcells_lit_iff] at hp
  obtain ⟨⟨p00,p01,p02,p03⟩, ⟨p10,p11,p12,p13⟩, ⟨p20,p21,p22,p23⟩, p30,p31,p32,p33⟩ := hp
  have pres := fun row h1 h2 => merge_row_powers row h1 h2
  cases d with
  | left =>
    obtain ⟨u0,u1,u2,u3,hu⟩ := list4_shape (merge_row [a0,a1,a2,a3]) (merge_row_length _ (by simp))
    obtain ⟨v0,v1,v2,v3,hv⟩ := list4_shape (merge_row [b0,b1,b2,b3]) (merge_row_length _ (by simp))
    obtain ⟨w0,w1,w2,w3,hw⟩ := list4_shape (merge_row [c0,c1,c2,c3]) (merge_row_length _ (by simp))
    obtain ⟨x0,x1,x2,x3,hx⟩ := list4_shape (merge_row [d0,d1,d2,d3]) (merge_row_length _ (by simp))
    obtain ⟨e1,e2,e3,e4⟩ := quad_powers_of_fact _ _ _ _ _ _ _ _ _ hu p00 p01 p02 p03 pres
    obtain ⟨f1,f2,f3,f4⟩ := quad_powers_of_fact _ _ _ _ _ _ _ _ _ hv p10 p11 p12 p13 pres
    obtain ⟨g1,g2,g3,g4⟩ := quad_powers_of_fact _ _ _ _ _ _ _ _ _ hw p20 p21 p22 p23 pres
    obtain ⟨i1,i2,i3,i4⟩ := quad_powers_of_fact _ _ _ _ _ _ _ _ _ hx p30 p31 p32 p33 pres
    show AllCells _ (merge_left _)
    rw [merge_left_lit, hu, hv, hw, hx, allcells_lit_iff]
    exact ⟨⟨e1,e2,e3,e4⟩, ⟨f1,f2,f3,f4⟩, ⟨g1,g2,g3,g4⟩, i1,i2,i3,i4⟩
  | right =>
    obtain ⟨u0,u1,u2,u3,hu⟩ := list4_shape (merge_row [a3,a2,a1,a0]) (merge_row_length _ (by simp))
    obtain ⟨v0,v1,v2,v3,hv⟩ := list4_shape (merge_row [b3,b2,b1,b0]) (merge_row_length _ (by simp))
    obtain ⟨w0,w1,w2,w3,hw⟩ := list4_shape (merge_row [c3,c2,c1,c0]) (merge_row_length _ (by simp))
    obtain ⟨x0,x1,x2,x3,hx⟩ := list4_shape (merge_row [d3,d2,d1,d0]) (merge_row_length _ (by simp))
    obtain ⟨e1,e2,e3,e4⟩ := quad_powers_of_fact _ _ _ _ _ _ _ _ _ hu p03 p02 p01 p00 pres
    obtain ⟨f1,f2,f3,f4⟩ := quad_powers_of_fact _ _ _ _ _ _ _ _ _ hv p13 p12 p11 p10 pres
    obtain ⟨g1,g2,g3,g4⟩ := quad_powers_of_fact _ _ _ _ _ _ _ _ _ hw p23 p22 p21 p20 pres
    obtain ⟨i1,i2,i3,i4⟩ := quad_powers_of_fact _ _ _ _ _ _ _ _ _ hx p33 p32 p31 p30 pres
    show AllCells _ (reverse (merge_left (reverse _)))
    rw [reverse_lit, merge_left_lit, hu, hv, hw, hx, reverse_lit, allcells_lit_iff]
    exact ⟨⟨e4,e3,e2,e1⟩, ⟨f4,f3,f2,f1⟩, ⟨g4,g3,g2,g1⟩, i4,i3,i2,i1⟩
  | up =>
    obtain ⟨u0,u1,u2,u3,hu⟩ := list4_shape (merge_row [d0,c0,b0,a0]) (merge_row_length _ (by simp))
    obtain ⟨v0,v1,v2,v3,hv⟩ := list4_shape (merge_row [d1,c1,b1,a1]) (merge_row_length _ (by simp))
    obtain ⟨w0,w1,w2,w3,hw⟩ := list4_shape (merge_row [d2,c2,b2,a2]) (merge_row_length _ (by simp))
    obtain ⟨x0,x1,x2,x3,hx⟩ := list4_shape (merge_row [d3,c3,b3,a3]) (merge_row_length _ (by simp))
    obtain ⟨e1,e2,e3,e4⟩ := quad_powers_of_fact _ _ _ _ _ _ _ _ _ hu p30 p20 p10 p00 pres
    obtain ⟨f1,f2,f3,f4⟩ := quad_powers_of_fact _ _ _ _ _ _ _ _ _ hv p31 p21 p11 p01 pres
    obtain ⟨g1,g2,g3,g4⟩ := quad_powers_of_fact _ _ _ _ _ _ _ _ _ hw p32 p22 p12 p02 pres
    obtain ⟨i1,i2,i3,i4⟩ := quad_powers_of_fact _ _ _ _ _ _ _ _ _ hx p33 p23 p13 p03 pres
    show AllCells _ (rotate (merge_left (rotate _ 1)) (-1))
    rw [rotate_one_lit, merge_left_lit, hu, hv, hw, hx, rotate_neg_one_lit, allcells_lit_iff]
    exact ⟨⟨e4,f4,g4,i4⟩, ⟨e3,f3,g3,i3⟩, ⟨e2,f2,g2,i2⟩, e1,f1,g1,i1⟩
  | down =>
    obtain ⟨u0,u1,u2,u3,hu⟩ := list4_shape (merge_row [a3,b3,c3,d3]) (merge_row_length _ (by simp))
    obtain ⟨v0,v1,v2,v3,hv⟩ := list4_shape (merge_row [a2,b2,c2,d2]) (merge_row_length _ (by simp))
    obtain ⟨w0,w1,w2,w3,hw⟩ := list4_shape (merge_row [a1,b1,c1,d1]) (merge_row_length _ (by simp))
    obtain ⟨x0,x1,x2,x3,hx⟩ := list4_shape (merge_row [a0,b0,c0,d0]) (merge_row_length _ (by simp))
    obtain ⟨e1,e2,e3,e4⟩ := quad_powers_of_fact _ _ _ _ _ _ _ _ _ hu p03 p13 p23 p33 pres
    obtain ⟨f1,f2,f3,f4⟩ := quad_powers_of_fact _ _ _ _ _ _ _ _ _ hv p02 p12 p22 p32 pres
    obtain ⟨g1,g2,g3,g4⟩ := quad_powers_of_fact _ _ _ _ _ _ _ _ _ hw p01 p11 p21 p31 pres
    obtain ⟨i1,i2,i3,i4⟩ := quad_powers_of_fact _ _ _ _ _ _ _ _ _ hx p00 p10 p20 p30 pres
    show AllCells _ (rotate (merge_left (rotate _ (-1))) 1)
    rw [rotate_neg_one_lit, merge_left_lit, hu, hv, hw, hx, rotate_one_lit, allcells_lit_iff]
    exact ⟨⟨i1,g1,f1,e1⟩, ⟨i2,g2,f2,e2⟩, ⟨i3,g3,f3,e3⟩, i4,g4,f4,e4⟩

theorem set_tile_powers (P : Nat → Prop) (g : Grid) (r c v : Nat)
    (hp : AllCells P g) (hv : P v) : AllCells P (set_tile g r c v) := by
  intro row hrow x hx
  rcases List.mem_or_eq_of_mem_set hrow with hrow | rfl
  · exact hp row hrow x hx
  · rcases List.mem_or_eq_of_mem_set hx with hx | rfl
    · rcases Nat.lt_or_ge r g.length with hlt | hge
      · have hmem : g.getD r [] ∈ g := by
          rw [List.getD_eq_getElem _ _ hlt]
          exact List.getElem_mem hlt
        exact hp _ hmem x hx
      · rw [List.getD_eq_default _ _ hge] at hx
        simp at hx
    · exact hv

theorem add_random_tile_powers (g g' : Grid) (hp : AllCells PowerGeTwo g)
    (h : add_random_tile_rel g g') : AllCells PowerGeTwo g' := by
  rcases h with ⟨-, p, -, v, hv, rfl⟩ | ⟨-, rfl⟩
  · refine set_tile_powers _ _ _ _ _ hp ?_
    simp only [List.mem_cons, List.not_mem_nil, or_false] at hv
    rcases hv with rfl | rfl <;> decide
  · exact hp

/-- C8: the power-of-two invariant: moves, every random-tile outcome, and
every initial board preserve/establish that each cell is zero or a power
of two that is at least 2. -/
theorem c8_theorem :
    (∀ g : Grid, WF g → AllCells PowerGeTwo g → ∀ d : Dir, AllCells PowerGeTwo (move g d)) ∧
    (∀ g g' : Grid, AllCells PowerGeTwo g → add_random_tile_rel g g' →
      AllCells PowerGeTwo g') ∧
    (∀ g : Grid, initialize_game_rel g → AllCells PowerGeTwo g) := by
  refine ⟨move_powers, add_random_tile_powers, ?_⟩
  rintro g ⟨g1, h1, h2⟩
  have hz : AllCells PowerGeTwo zeroGrid := by decide
  exact add_random_tile_powers _ _ (add_random_tile_powers _ _ hz h1) h2

/-- C8, witness: the invariant applied to a concrete move, a concrete
spawn outcome, and a concrete initial board. -/
theorem c8_witness :
    (WF [[2,2,4,0],[0,0,0,0],[0,0,0,0],[0,0,0,2]] ∧
      AllCells PowerGeTwo [[2,2,4,0],[0,0,0,0],[0,0,0,0],[0,0,0,2]] ∧
      AllCells PowerGeTwo (move [[2,2,4,0],[0,0,0,0],[0,0,0,0],[0,0,0,2]] Dir.left)) ∧
    initialize_game_rel [[2,0,0,0],[0,4,0,0],[0,0,0,0],[0,0,0,0]] ∧
    AllCells PowerGeTwo [[2,0,0,0],[0,4,0,0],[0,0,0,0],[0,0,0,0]] := by
  refine ⟨⟨by decide, by decide,
    c8_theorem.1 _ (by decide) (by decide) Dir.left⟩, ?_, ?_⟩
  · exact ⟨[[2,0,0,0],[0,0,0,0],[0,0,0,0],[0,0,0,0]], by decide, by decide⟩
  · exact c8_theorem.2.2 _
      ⟨[[2,0,0,0],[0,0,0,0],[0,0,0,0],[0,0,0,0]], by decide, by decide⟩

/-! ## Claim C7 -/

theorem foldr_max_eq_zero_iff (l : List Nat) : l.foldr max 0 = 0 ↔ ∀ x ∈ l, x = 0 := by
  induction l with
  | nil => simp
  | cons a t ih => simp [Nat.max_eq_zero_iff, ih, and_comm]

theorem maxCell_eq_zero_iff (g : Grid) : maxCell g = 0 ↔ ∀ r ∈ g, ∀ v ∈ r, v = 0 := by
  unfold maxCell
  rw [foldr_max_eq_zero_iff]
  constructor
  · intro h r hr v hv
    have := h _ (List.mem_map_of_mem _ hr)
    exact (foldr_max_eq_zero_iff r).mp this v hv
  · intro h x hx
    obtain ⟨r, hr, rfl⟩ := List.mem_map.mp hx
    exact (foldr_max_eq_zero_iff r).mpr (h r hr)

/-- C7: the combined heuristic is the weighted sum
`2.7 * empty + 1.0 * log2(max tile) + 0.1 * smoothness +
1.0 * monotonicity`, where the max-tile term is 0 when every cell is
zero. -/
theorem c7_theorem (g : Grid) (hwf : WF g) :
    combined_heuristic g =
      2.7 * (empty_tile_heuristic g : ℝ)
      + 1.0 * (if ∀ r ∈ g, ∀ v ∈ r, v = 0 then 0 else Real.logb 2 (maxCell g : ℝ))
      + 0.1 * smoothness_heuristic g
      + 1.0 * monotonicity_heuristic g := by
  clear hwf
  simp only [combined_heuristic, max_tile_heuristic]
  by_cases h : maxCell g = 0
  · rw [if_neg (by simpa using h), if_pos ((maxCell_eq_zero_iff g).mp h)]
  · rw [if_pos (by simpa using h), if_neg (fun hc => h ((maxCell_eq_zero_iff g).mpr hc))]

/-- C7, witness: the formula applied to a concrete board. -/
theorem c7_witness :
    WF [[2,4,0,0],[0,8,0,0],[0,0,0,0],[0,0,0,2]] ∧
    combined_heuristic [[2,4,0,0],[0,8,0,0],[0,0,0,0],[0,0,0,2]] =
      2.7 * (empty_tile_heuristic [[2,4,0,0],[0,8,0,0],[0,0,0,0],[0,0,0,2]] : ℝ)
      + 1.0 * (if ∀ r ∈ ([[2,4,0,0],[0,8,0,0],[0,0,0,0],[0,0,0,2]] : Grid), ∀ v ∈ r, v = 0
          then 0 else Real.logb 2 (maxCell [[2,4,0,0],[0,8,0,0],[0,0,0,0],[0,0,0,2]] : ℝ))
      + 0.1 * smoothness_heuristic [[2,4,0,0],[0,8,0,0],[0,0,0,0],[0,0,0,2]]
      + 1.0 * monotonicity_heuristic [[2,4,0,0],[0,8,0,0],[0,0,0,0],[0,0,0,2]] :=
  ⟨by decide, c7_theorem _ (by decide)⟩

/-! ## Claim C6 -/

/-- C6: at a maximizing node the search returns an absent direction
whenever the board is terminal, the depth limit is reached, or there is no
candidate move (so no score ever beats the `-inf` sentinel); in
particular the top-level call on a terminal board returns an absent
direction for every `max_depth`. -/
theorem c6_theorem (g : Grid) (depth max_depth : Nat) (h : depth ≤ max_depth)
    (hcond : game_over g = true ∨ depth = max_depth ∨ get_possible_moves g = []) :
    (expectimax_plain g depth true max_depth h).2 = none := by
  rw [expectimax_plain]
  by_cases hstop : depth = max_depth ∨ game_over g = true
  · rw [dif_pos hstop]
  · rw [dif_neg hstop]
    have hmv : get_possible_moves g = [] := by tauto
    rw [if_pos rfl, hmv]
    have hne : depth ≠ max_depth := fun he => hstop (Or.inl he)
    have hlt : depth + 1 ≤ max_depth := by omega
    show (maxFold [] (depth + 1) max_depth hlt ((⊥ : EReal), none)).2 = none
    rw [maxFold.eq_def]

/-- C6, witness: a terminal checkerboard at the top level with the default
depth bound. -/
theorem c6_witness :
    game_over [[2,4,2,4],[4,2,4,2],[2,4,2,4],[4,2,4,2]] = true ∧
    (expectimax_plain [[2,4,2,4],[4,2,4,2],[2,4,2,4],[4,2,4,2]] 0 true 3
      (by norm_num)).2 = none :=
  ⟨by decide, c6_theorem _ 0 3 (by norm_num) (Or.inl (by decide))⟩

/-! ## Claim C4 -/

theorem ereal_posmul_distrib (a : ℝ) (ha : 0 < a) (x y : EReal) :
    (a : EReal) * (x + y) = (a : EReal) * x + (a : EReal) * y := by
  induction x with
  | h_bot =>
    rw [EReal.bot_add, EReal.coe_mul_bot_of_pos ha, EReal.bot_add]
  | h_top =>
    induction y with
    | h_bot =>
      rw [EReal.add_bot, EReal.coe_mul_bot_of_pos ha, EReal.add_bot]
    | h_top =>
      rw [EReal.top_add_top, EReal.coe_mul_top_of_pos ha, EReal.top_add_top]
    | h_real r =>
      rw [EReal.top_add_of_ne_bot (EReal.coe_ne_bot r), EReal.coe_mul_top_of_pos ha,
        ← EReal.coe_mul, EReal.top_add_of_ne_bot (EReal.coe_ne_bot _)]
  | h_real r =>
    induction y with
    | h_bot =>
      rw [EReal.add_bot, EReal.coe_mul_bot_of_pos ha, ← EReal.coe_mul, EReal.add_bot]
    | h_top =>
      rw [EReal.add_top_of_ne_bot (EReal.coe_ne_bot r), EReal.coe_mul_top_of_pos ha,
        ← EReal.coe_mul, EReal.add_top_of_ne_bot (EReal.coe_ne_bot _)]
    | h_real s =>
      norm_cast
      ring

theorem ereal_posmul_assoc (a b : ℝ) (ha : 0 < a) (hb : 0 < b) (x : EReal) :
    ((a * b : ℝ) : EReal) * x = (a : EReal) * ((b : EReal) * x) := by
  induction x with
  | h_bot =>
    rw [EReal.coe_mul_bot_of_pos hb, EReal.coe_mul_bot_of_pos ha,
      EReal.coe_mul_bot_of_pos (mul_pos ha hb)]
  | h_top =>
    rw [EReal.coe_mul_top_of_pos hb, EReal.coe_mul_top_of_pos ha,
      EReal.coe_mul_top_of_pos (mul_pos ha hb)]
  | h_real r =>
    rw [← EReal.coe_mul, ← EReal.coe_mul, ← EReal.coe_mul, mul_assoc]

theorem game_over_empty_cells (g : Grid) (hwf : WF g) (hgo : game_over g = true) :
    empty_cells g = [] := by
  obtain ⟨a0,a1,a2,a3,b0,b1,b2,b3,c0,c1,c2,c3,d0,d1,d2,d3, rfl⟩ := grid16 g hwf
  rw [game_over_lit_iff] at hgo
  obtain ⟨⟨z00,z01,z02,z03,z10,z11,z12,z13,z20,z21,z22,z23,z30,z31,z32,z33⟩, -, -⟩ := hgo
  unfold empty_cells
  rw [show (List.range 4) = [0,1,2,3] from rfl]
  simp [cell, z00,z01,z02,z03,z10,z11,z12,z13,z20,z21,z22,z23,z30,z31,z32,z33]

theorem chanceFold_eq (cells : List (Nat × Nat)) (total : Nat) (g : Grid)
    (depth max_depth : Nat) (h : depth ≤ max_depth) (acc : EReal) :
    chanceFold cells total g depth max_depth h acc =
      acc + (cells.map (fun rc =>
        ((0.9 / (total : ℝ) : ℝ) : EReal) *
          (expectimax_plain (set_tile g rc.1 rc.2 2) depth true max_depth h).1 +
        ((0.1 / (total : ℝ) : ℝ) : EReal) *
          (expectimax_plain (set_tile g rc.1 rc.2 4) depth true max_depth h).1)).sum := by
  induction cells generalizing acc with
  | nil =>
    rw [chanceFold.eq_def]
    simp
  | cons rc rest ih =>
    obtain ⟨r, c⟩ := rc
    rw [chanceFold.eq_def]
    simp only []
    rw [ih]
    rw [List.map_cons, List.sum_cons]
    abel

/-- C4: at a chance node strictly below the depth limit, the score is the
heuristic when the board is full (and the direction is absent), and
otherwise the sum over empty cells of
`(1/|empty|) * (0.9 * value(place 2) + 0.1 * value(place 4))`, the
children being maximizing nodes one level deeper. -/
theorem c4_theorem (g : Grid) (depth max_depth : Nat) (hwf : WF g)
    (hlt : depth < max_depth) :
    ((expectimax_plain g depth false max_depth (le_of_lt hlt)).1 =
      if empty_cells g = [] then ((combined_heuristic g : ℝ) : EReal)
      else ((empty_cells g).map (fun rc =>
        ((1 / ((empty_cells g).length : ℝ) : ℝ) : EReal) *
          (((0.9 : ℝ) : EReal) *
            (expectimax_plain (set_tile g rc.1 rc.2 2) (depth+1) true max_depth hlt).1 +
           ((0.1 : ℝ) : EReal) *
            (expectimax_plain (set_tile g rc.1 rc.2 4) (depth+1) true max_depth hlt).1))).sum)
    ∧ (expectimax_plain g depth false max_depth (le_of_lt hlt)).2 = none := by
  constructor
  case right =>
    rw [expectimax_plain]
    by_cases hstop : depth = max_depth ∨ game_over g = true
    · rw [dif_pos hstop]
    · rw [dif_neg hstop, if_neg (by simp)]
      by_cases hec : empty_cells g = []
      · rw [if_pos hec]
      · rw [if_neg hec]
  rw [expectimax_plain]
  by_cases hstop : depth = max_depth ∨ game_over g = true
  · have hgo : game_over g = true := by
      rcases hstop with hd | hgo
      · omega
      · exact hgo
    rw [dif_pos hstop, if_pos (game_over_empty_cells g hwf hgo)]
  · rw [dif_neg hstop]
    rw [if_neg (by simp)]
    by_cases hec : empty_cells g = []
    · rw [if_pos hec, if_pos hec]
    · rw [if_neg hec, if_neg hec]
      show chanceFold (empty_cells g) (empty_cells g).length g (depth+1) max_depth hlt 0 = _
      rw [chanceFold_eq, zero_add]
      apply congrArg List.sum
      apply List.map_congr_left
      intro rc hrc
      have hn : (0:ℝ) < ((empty_cells g).length : ℝ) := by
        have := List.length_pos.mpr hec
        exact_mod_cast this
      have h1 : (0:ℝ) < 1 / ((empty_cells g).length : ℝ) := by positivity
      rw [ereal_posmul_distrib _ h1]
      rw [← ereal_posmul_assoc _ _ h1 (by norm_num : (0:ℝ) < 0.9)]
      rw [← ereal_posmul_assoc _ _ h1 (by norm_num : (0:ℝ) < 0.1)]
      rw [show (1 / ((empty_cells g).length : ℝ) * 0.9 : ℝ)
          = (0.9 / ((empty_cells g).length : ℝ) : ℝ) from by ring]
      rw [show (1 / ((empty_cells g).length : ℝ) * 0.1 : ℝ)
          = (0.1 / ((empty_cells g).length : ℝ) : ℝ) from by ring]

/-- C4, witness: the chance-node formula applied to a concrete nearly-full
board below the depth limit. -/
theorem c4_witness :
    WF [[2,4,2,4],[4,2,4,2],[2,4,2,4],[4,2,4,0]] ∧ (0 : Nat) < 2 ∧
    (expectimax_plain [[2,4,2,4],[4,2,4,2],[2,4,2,4],[4,2,4,0]] 0 false 2
        (by norm_num)).1 =
      if empty_cells [[2,4,2,4],[4,2,4,2],[2,4,2,4],[4,2,4,0]] = [] then
        ((combined_heuristic [[2,4,2,4],[4,2,4,2],[2,4,2,4],[4,2,4,0]] : ℝ) : EReal)
      else ((empty_cells [[2,4,2,4],[4,2,4,2],[2,4,2,4],[4,2,4,0]]).map (fun rc =>
        ((1 / ((empty_cells [[2,4,2,4],[4,2,4,2],[2,4,2,4],[4,2,4,0]]).length : ℝ) : ℝ) : EReal) *
          (((0.9 : ℝ) : EReal) *
            (expectimax_plain
              (set_tile [[2,4,2,4],[4,2,4,2],[2,4,2,4],[4,2,4,0]] rc.1 rc.2 2) 1 true 2
              (by norm_num)).1 +
           ((0.1 : ℝ) : EReal) *
            (expectimax_plain
              (set_tile [[2,4,2,4],[4,2,4,2],[2,4,2,4],[4,2,4,0]] rc.1 rc.2 4) 1 true 2
              (by norm_num)).1))).sum :=
  ⟨by decide, by decide, (c4_theorem _ 0 2 (by decide) (by norm_num)).1⟩

/-! ## Claim C9 -/

theorem maxFoldFuel_eq_maxFold (fuel : Nat) (depth max_depth : Nat) (h : depth ≤ max_depth)
    (hrec : ∀ g' : Grid, expectimaxFuel fuel g' depth false max_depth
      = some (expectimax_plain g' depth false max_depth h)) :
    ∀ (moves : List (Dir × Grid)) (acc : EReal × Option Dir),
      maxFoldFuel fuel moves depth max_depth acc
        = some (maxFold moves depth max_depth h acc) := by
  intro moves
  induction moves with
  | nil =>
    intro acc
    rw [maxFoldFuel.eq_def, maxFold.eq_def]
  | cons m rest ihm =>
    intro acc
    obtain ⟨d, g'⟩ := m
    obtain ⟨s, od, hP⟩ : ∃ s od, expectimax_plain g' depth false max_depth h = (s, od) :=
      ⟨_, _, rfl⟩
    rw [maxFoldFuel.eq_def, maxFold.eq_def]
    simp only [hrec g', hP]
    exact ihm _

theorem chanceFoldFuel_eq_chanceFold (fuel : Nat) (depth max_depth : Nat)
    (h : depth ≤ max_depth) (g : Grid) (total : Nat)
    (hrec : ∀ g' : Grid, expectimaxFuel fuel g' depth true max_depth
      = some (expectimax_plain g' depth true max_depth h)) :
    ∀ (cells : List (Nat × Nat)) (score : EReal),
      chanceFoldFuel fuel cells total g depth max_depth score
        = some (chanceFold cells total g depth max_depth h score) := by
  intro cells
  induction cells with
  | nil =>
    intro score
    rw [chanceFoldFuel.eq_def, chanceFold.eq_def]
  | cons rc rest ihm =>
    intro score
    obtain ⟨r, c⟩ := rc
    obtain ⟨s2, od2, hP2⟩ :
        ∃ s od, expectimax_plain (set_tile g r c 2) depth true max_depth h = (s, od) :=
      ⟨_, _, rfl⟩
    obtain ⟨s4, od4, hP4⟩ :
        ∃ s od, expectimax_plain (set_tile g r c 4) depth true max_depth h = (s, od) :=
      ⟨_, _, rfl⟩
    rw [chanceFoldFuel.eq_def, chanceFold.eq_def]
    simp only [hrec _, hP2, hP4]
    exact ihm _

theorem expectimaxFuel_succ (fuel : Nat) (g : Grid) (depth : Nat) (player_turn : Bool)
    (max_depth : Nat) :
    expectimaxFuel (fuel+1) g depth player_turn max_depth =
      if depth = max_depth ∨ game_over g = true then
        some ((combined_heuristic g : EReal), none)
      else if player_turn then
        maxFoldFuel fuel (get_possible_moves g) (depth+1) max_depth ((⊥ : EReal), none)
      else if empty_cells g = [] then some ((combined_heuristic g : EReal), none)
      else
        (chanceFoldFuel fuel (empty_cells g) (empty_cells g).length g (depth+1) max_depth 0).map
          (fun s => (s, none)) := by
  rw [expectimaxFuel.eq_def]

/-- C9: the search terminates, with recursion depth bounded by
`max_depth - depth`: the fuel-instrumented copy of the recursion never
exhausts any fuel exceeding that bound and computes the same result —
each recursive call increases `depth` by exactly one and every path
returns at `depth = max_depth`, on a terminal board, or when no expansion
is possible. -/
theorem c9_theorem (fuel : Nat) :
    ∀ (g : Grid) (depth : Nat) (player_turn : Bool) (max_depth : Nat)
      (h : depth ≤ max_depth), max_depth - depth < fuel →
      expectimaxFuel fuel g depth player_turn max_depth
        = some (expectimax_plain g depth player_turn max_depth h) := by
  induction fuel with
  | zero =>
    intro g depth player_turn max_depth h hfuel
    omega
  | succ fuel ih =>
    intro g depth player_turn max_depth h hfuel
    rw [expectimaxFuel_succ, expectimax_plain.eq_def]
    by_cases hstop : depth = max_depth ∨ game_over g = true
    · rw [if_pos hstop, dif_pos hstop]
    · rw [if_neg hstop, dif_neg hstop]
      have hne : depth ≠ max_depth := fun he => hstop (Or.inl he)
      have hlt : depth < max_depth := lt_of_le_of_ne h hne
      have hrec2 : max_depth - (depth + 1) < fuel := by omega
      cases player_turn with
      | true =>
        simp only [if_pos rfl]
        exact maxFoldFuel_eq_maxFold fuel (depth+1) max_depth hlt
          (fun g' => ih g' (depth+1) false max_depth hlt hrec2) _ _
      | false =>
        simp only [Bool.false_eq_true, if_false]
        by_cases hec : empty_cells g = []
        · rw [if_pos hec, if_pos hec]
        · rw [if_neg hec, if_neg hec]
          rw [chanceFoldFuel_eq_chanceFold fuel (depth+1) max_depth hlt g _
            (fun g' => ih g' (depth+1) true max_depth hlt hrec2) _ _]
          rfl

/-- C9, witness: the bound applied at a concrete board, depth and fuel. -/
theorem c9_witness :
    (0 : Nat) ≤ 2 ∧ 2 - 0 < 3 ∧
    expectimaxFuel 3 [[2,0,0,0],[0,0,0,0],[0,0,0,0],[0,0,0,0]] 0 true 2
      = some (expectimax_plain [[2,0,0,0],[0,0,0,0],[0,0,0,0],[0,0,0,0]] 0 true 2
          (by norm_num)) :=
  ⟨by norm_num, by norm_num,
   c9_theorem 3 _ 0 true 2 (by norm_num) (by norm_num)⟩

/-! ## Claim C5 -/

theorem tableOK_empty (max_depth : Nat) : TableOK max_depth emptyTable := by
  intro g d pl r hr
  simp [emptyTable] at hr

theorem tableOK_insert (max_depth : Nat) (t : Table) (ht : TableOK max_depth t)
    (g : Grid) (d : Nat) (pl : Bool) (h : d ≤ max_depth) :
    TableOK max_depth (tableInsert t (g, d, pl) (expectimax_plain g d pl max_depth h)) := by
  intro g' d' pl' r hr
  unfold tableInsert at hr
  by_cases hk : ((g', d', pl') : Grid × Nat × Bool) = (g, d, pl)
  · rw [if_pos hk] at hr
    obtain ⟨rfl, rfl, rfl⟩ : g' = g ∧ d' = d ∧ pl' = pl := by
      injection hk with h1 h2
      injection h2 with h2 h3
      exact ⟨h1, h2, h3⟩
    exact ⟨h, (Option.some.inj hr).symm⟩
  · rw [if_neg hk] at hr
    exact ht g' d' pl' r hr

theorem maxFoldMemo_ok (depth max_depth : Nat) (h : depth ≤ max_depth)
    (hrec : ∀ (g' : Grid) (t : Table), TableOK max_depth t →
      (expectimax_memo g' depth false max_depth h t).1
        = expectimax_plain g' depth false max_depth h ∧
      TableOK max_depth (expectimax_memo g' depth false max_depth h t).2) :
    ∀ (moves : List (Dir × Grid)) (acc : EReal × Option Dir) (t : Table),
      TableOK max_depth t →
      (maxFoldMemo moves depth max_depth h acc t).1 = maxFold moves depth max_depth h acc ∧
      TableOK max_depth (maxFoldMemo moves depth max_depth h acc t).2 := by
  intro moves
  induction moves with
  | nil =>
    intro acc t ht
    rw [maxFoldMemo.eq_def, maxFold.eq_def]
    exact ⟨rfl, ht⟩
  | cons m rest ihm =>
    intro acc t ht
    obtain ⟨d, g'⟩ := m
    obtain ⟨h1, h2⟩ := hrec g' t ht
    rw [maxFoldMemo.eq_def, maxFold.eq_def]
    simp only [h1]
    exact ihm _ _ h2

theorem chanceFoldMemo_ok (g : Grid) (total : Nat) (depth max_depth : Nat)
    (h : depth ≤ max_depth)
    (hrec : ∀ (g' : Grid) (t : Table), TableOK max_depth t →
      (expectimax_memo g' depth true max_depth h t).1
        = expectimax_plain g' depth true max_depth h ∧
      TableOK max_depth (expectimax_memo g' depth true max_depth h t).2) :
    ∀ (cells : List (Nat × Nat)) (score : EReal) (t : Table),
      TableOK max_depth t →
      (chanceFoldMemo cells total g depth max_depth h score t).1
        = chanceFold cells total g depth max_depth h score ∧
      TableOK max_depth (chanceFoldMemo cells total g depth max_depth h score t).2 := by
  intro cells
  induction cells with
  | nil =>
    intro score t ht
    rw [chanceFoldMemo.eq_def, chanceFold.eq_def]
    exact ⟨rfl, ht⟩
  | cons rc rest ihm =>
    intro score t ht
    obtain ⟨r, c⟩ := rc
    obtain ⟨h21, h22⟩ := hrec (set_tile g r c 2) t ht
    obtain ⟨h41, h42⟩ := hrec (set_tile g r c 4)
      ((expectimax_memo (set_tile g r c 2) depth true max_depth h t).2) h22
    rw [chanceFoldMemo.eq_def, chanceFold.eq_def]
    simp only [h21, h41]
    exact ihm _ _ h42

theorem expectimax_memo_ok (max_depth : Nat) :
    ∀ (k : Nat) (d : Nat) (hd : d ≤ max_depth), max_depth - d ≤ k →
      ∀ (g : Grid) (pl : Bool) (t : Table), TableOK max_depth t →
        (expectimax_memo g d pl max_depth hd t).1 = expectimax_plain g d pl max_depth hd ∧
        TableOK max_depth (expectimax_memo g d pl max_depth hd t).2 := by
  intro k
  induction k with
  | zero =>
    intro d hd hk g pl t ht
    have hdm : d = max_depth := by omega
    cases hlook : t (g, d, pl) with
    | some r =>
      obtain ⟨h', hr⟩ := ht g d pl r hlook
      rw [expectimax_memo.eq_def, hlook]
      exact ⟨hr, ht⟩
    | none =>
      rw [expectimax_memo.eq_def, hlook]
      simp only []
      rw [dif_pos (Or.inl hdm)]
      have he : ((combined_heuristic g : EReal), (none : Option Dir))
          = expectimax_plain g d pl max_depth hd := by
        rw [expectimax_plain, dif_pos (Or.inl hdm)]
      constructor
      · exact he
      · rw [he]
        exact tableOK_insert max_depth t ht g d pl hd
  | succ k ih =>
    intro d hd hk g pl t ht
    cases hlook : t (g, d, pl) with
    | some r =>
      obtain ⟨h', hr⟩ := ht g d pl r hlook
      rw [expectimax_memo.eq_def, hlook]
      exact ⟨hr, ht⟩
    | none =>
      rw [expectimax_memo.eq_def, hlook]
      simp only []
      by_cases hstop : d = max_depth ∨ game_over g = true
      · rw [dif_pos hstop]
        have he : ((combined_heuristic g : EReal), (none : Option Dir))
            = expectimax_plain g d pl max_depth hd := by
          rw [expectimax_plain, dif_pos hstop]
        constructor
        · exact he
        · rw [he]
          exact tableOK_insert max_depth t ht g d pl hd
      · rw [dif_neg hstop]
        have hlt : d < max_depth := lt_of_le_of_ne hd (fun he => hstop (Or.inl he))
        have hk2 : max_depth - (d + 1) ≤ k := by omega
        cases pl with
        | true =>
          rw [if_pos rfl]
          obtain ⟨p1, p2⟩ := maxFoldMemo_ok (d+1) max_depth hlt
            (fun g' t' ht' => ih (d+1) hlt hk2 g' false t' ht')
            (get_possible_moves g) ((⊥ : EReal), none) t ht
          have he : (maxFoldMemo (get_possible_moves g) (d+1) max_depth hlt
              ((⊥ : EReal), none) t).1 = expectimax_plain g d true max_depth hd := by
            rw [expectimax_plain, dif_neg hstop, if_pos rfl]
            exact p1
          constructor
          · exact he
          · rw [he]
            exact tableOK_insert max_depth _ p2 g d true hd
        | false =>
          rw [if_neg (by simp)]
          by_cases hec : empty_cells g = []
          · rw [if_pos hec]
            have he : ((combined_heuristic g : EReal), (none : Option Dir))
                = expectimax_plain g d false max_depth hd := by
              rw [expectimax_plain, dif_neg hstop, if_neg (by simp), if_pos hec]
            constructor
            · exact he
            · rw [he]
              exact tableOK_insert max_depth t ht g d false hd
          · rw [if_neg hec]
            obtain ⟨p1, p2⟩ := chanceFoldMemo_ok g (empty_cells g).length (d+1) max_depth hlt
              (fun g' t' ht' => ih (d+1) hlt hk2 g' true t' ht')
              (empty_cells g) 0 t ht
            have he : ((chanceFoldMemo (empty_cells g) (empty_cells g).length g (d+1)
                max_depth hlt 0 t).1, (none : Option Dir))
                = expectimax_plain g d false max_depth hd := by
              rw [expectimax_plain, dif_neg hstop, if_neg (by simp), if_neg hec, p1]
            constructor
            · exact he
            · rw [he]
              exact tableOK_insert max_depth _ p2 g d false hd

/-- C5: memoization is semantically transparent: starting from the empty
transposition table, the memoized search returns exactly the same
(score, direction) pair as the identical recursion without the table, and
every entry of the resulting table holds the plain result of exactly its
own (board, depth, node-kind) key. -/
theorem c5_theorem (g : Grid) (depth : Nat) (player_turn : Bool) (max_depth : Nat)
    (h : depth ≤ max_depth) :
    (expectimax_memo g depth player_turn max_depth h emptyTable).1
      = expectimax_plain g depth player_turn max_depth h ∧
    TableOK max_depth (expectimax_memo g depth player_turn max_depth h emptyTable).2 :=
  expectimax_memo_ok max_depth (max_depth - depth) depth h (le_refl _) g player_turn
    emptyTable (tableOK_empty max_depth)

/-- C5, witness: memoized and plain search agree at a concrete board. -/
theorem c5_witness :
    (0 : Nat) ≤ 2 ∧
    (expectimax_memo [[2,0,0,0],[0,0,0,0],[0,0,0,0],[0,0,0,2]] 0 true 2 (by norm_num)
        emptyTable).1
      = expectimax_plain [[2,0,0,0],[0,0,0,0],[0,0,0,0],[0,0,0,2]] 0 true 2 (by norm_num) :=
  ⟨by norm_num, (c5_theorem _ 0 true 2 (by norm_num)).1⟩

-- quick sanity examples (claim-independent)
example : merge_row [2,2,2,2] = [4,4,0,0] := by decide
example : merge_row [4,2,2,4] = [4,4,4,0] := by decide
example : merge_row [2,0,2,4] = [4,4,0,0] := by decide
example : move [[2,2,0,0],[0,0,0,0],[0,0,0,0],[0,0,0,0]] Dir.left
    = [[4,0,0,0],[0,0,0,0],[0,0,0,0],[0,0,0,0]] := by decide
example : rotate [[1,2,0,0],[3,4,0,0],[0,0,0,0],[0,0,0,0]] 1
    = [[0,0,3,1],[0,0,4,2],[0,0,0,0],[0,0,0,0]] := by decide
example : game_over [[2,4,2,4],[4,2,4,2],[2,4,2,4],[4,2,4,2]] = true := by decide
example : game_over [[2,2,2,4],[4,2,4,2],[2,4,2,4],[4,2,4,2]] = false := by decide
